import Mathlib

/-!
Verification of the render-pass command subsystem of wgpu-core
(src/wgpu-core/src/command/render.rs): the command-stream codec, the
validation state machine, and the pass executor.

Machine integers are modelled as Nat; wherever the source truncates
(`as u32`) or uses a sentinel (`BufferSize::WHOLE`), the model makes the
truncation or sentinel explicit.
-/

namespace WgpuRender

/-- wgt::LoadOp. -/
inductive LoadOp
  | Clear
  | Load
deriving DecidableEq, Inhabited

/-- wgt::StoreOp. -/
inductive StoreOp
  | Clear
  | Store
deriving DecidableEq, Inhabited

/-- wgt::IndexFormat. -/
inductive IndexFormat
  | Uint16
  | Uint32
deriving DecidableEq, Inhabited

/-- wgt::InputStepMode. -/
inductive InputStepMode
  | Vertex
  | Instance
deriving DecidableEq, Inhabited

/-- The `BufferSize::WHOLE` sentinel (u64 maximum) used by
SetIndexBuffer / SetVertexBuffer to request the whole buffer. -/
def WHOLE : Nat := 2 ^ 64 - 1

/-- The RenderCommand enum of render.rs.  Ids, counts and bit patterns of
float payloads are carried as Nat.  `size` fields are u64 values where the
`WHOLE` sentinel requests the whole buffer, exactly as in the source. -/
inductive RenderCommand
  | SetBindGroup (index : Nat) (num_dynamic_offsets : Nat) (bind_group_id : Nat)
  | SetPipeline (pipeline_id : Nat)
  | SetIndexBuffer (buffer_id : Nat) (offset : Nat) (size : Nat)
  | SetVertexBuffer (slot : Nat) (buffer_id : Nat) (offset : Nat) (size : Nat)
  | SetBlendColor (r g b a : Nat)
  | SetStencilReference (value : Nat)
  | SetViewport (x y w h depth_min depth_max : Nat)
  | SetScissor (x y w h : Nat)
  | Draw (vertex_count instance_count first_vertex first_instance : Nat)
  | DrawIndexed (index_count instance_count first_index base_vertex first_instance : Nat)
  | DrawIndirect (buffer_id offset : Nat)
  | DrawIndexedIndirect (buffer_id offset : Nat)
  | PushDebugGroup (color : Nat) (len : Nat)
  | PopDebugGroup
  | InsertDebugMarker (color : Nat) (len : Nat)
  | ExecuteBundle (bundle_id : Nat)
  | End
deriving DecidableEq, Inhabited

/-! ### Command stream codec

Modelled from the spec: the byte-level primitives (RawPass::encode,
peek_poke::Peek/Poke, PhantomSlice::decode_unaligned) live in
command/mod.rs, which is not part of the given sources.  Per the spec the
wire format is a sequence of fixed-shape tagged records (tag plus fixed
fields, every record padded to the one maximal record size) with
variable-length trailers following their owning record, the element count
embedded in the record.  Cells of the stream are modelled as Nat. -/

/-- Modelled from the spec: maximal (fixed) record size in cells, the
`RenderCommand::max_size()` of the decode loop bounds check. -/
def recSize : Nat := 7

/-- Modelled from the spec: fixed size of the RawRenderTargets header that
precedes the command records in the buffer. -/
def targetsMaxSize : Nat := 45

/-- Modelled from the spec: encoding of one record as a fixed-shape tagged
block of `recSize` cells (tag, then the fixed fields, zero-padded). -/
def encodeCommand : RenderCommand → List Nat
  | .SetBindGroup i n g => [0, i, n, g, 0, 0, 0]
  | .SetPipeline p => [1, p, 0, 0, 0, 0, 0]
  | .SetIndexBuffer b o s => [2, b, o, s, 0, 0, 0]
  | .SetVertexBuffer sl b o s => [3, sl, b, o, s, 0, 0]
  | .SetBlendColor r g b a => [4, r, g, b, a, 0, 0]
  | .SetStencilReference v => [5, v, 0, 0, 0, 0, 0]
  | .SetViewport x y w h dn dx => [6, x, y, w, h, dn, dx]
  | .SetScissor x y w h => [7, x, y, w, h, 0, 0]
  | .Draw a b c d => [8, a, b, c, d, 0, 0]
  | .DrawIndexed a b c d e => [9, a, b, c, d, e, 0]
  | .DrawIndirect b o => [10, b, o, 0, 0, 0, 0]
  | .DrawIndexedIndirect b o => [11, b, o, 0, 0, 0, 0]
  | .PushDebugGroup c l => [12, c, l, 0, 0, 0, 0]
  | .PopDebugGroup => [13, 0, 0, 0, 0, 0, 0]
  | .InsertDebugMarker c l => [14, c, l, 0, 0, 0, 0]
  | .ExecuteBundle b => [15, b, 0, 0, 0, 0, 0]
  | .End => [16, 0, 0, 0, 0, 0, 0]

/-- Modelled from the spec: parsing one fixed-shape record block back into
a RenderCommand; an unknown tag is a decode failure. -/
def parseRecord : List Nat → Option RenderCommand
  | [t, a, b, c, d, e, _f] =>
    match t with
    | 0 => some (.SetBindGroup a b c)
    | 1 => some (.SetPipeline a)
    | 2 => some (.SetIndexBuffer a b c)
    | 3 => some (.SetVertexBuffer a b c d)
    | 4 => some (.SetBlendColor a b c d)
    | 5 => some (.SetStencilReference a)
    | 6 => some (.SetViewport a b c d e _f)
    | 7 => some (.SetScissor a b c d)
    | 8 => some (.Draw a b c d)
    | 9 => some (.DrawIndexed a b c d e)
    | 10 => some (.DrawIndirect a b)
    | 11 => some (.DrawIndexedIndirect a b)
    | 12 => some (.PushDebugGroup a b)
    | 13 => some .PopDebugGroup
    | 14 => some (.InsertDebugMarker a b)
    | 15 => some (.ExecuteBundle a)
    | 16 => some .End
    | _ => none
  | _ => none

/-- Length of the variable-length trailer that follows a record, as the
executor derives it from the record fields (render.rs lines 946-951,
1306-1308, 1326-1328): the dynamic-offset count for SetBindGroup and the
debug-label length for the debug-marker records. -/
def RenderCommand.trailerLen : RenderCommand → Nat
  | .SetBindGroup _ n _ => n
  | .PushDebugGroup _ l => l
  | .InsertDebugMarker _ l => l
  | _ => 0

/-- A decode fault: `framing` is the fatal framing error raised by the
bounds checks; `oob` marks an actual out-of-bounds cell read and is shown
to be unreachable. -/
inductive Fault
  | framing
  | oob
deriving DecidableEq, Inhabited

/-- One guarded cell read from the raw buffer. -/
def readCell (buf : List Nat) (i : Nat) : Except Fault Nat :=
  match buf.get? i with
  | some v => .ok v
  | none => .error .oob

/-- `n` consecutive guarded cell reads starting at `i`. -/
def readCells (buf : List Nat) (i : Nat) : Nat → Except Fault (List Nat)
  | 0 => .ok []
  | n + 1 => do
    let v ← readCell buf i
    let vs ← readCells buf (i + 1) n
    .ok (v :: vs)

/-- Fuel-indexed body of the decode loop.  Each iteration advances the
cursor by at least `recSize`, so the fuel `decodeLoop` supplies can never
run out; the fuel-exhausted branch coincides with the framing error the
bounds check would raise. -/
def decodeLoopAux : Nat → List Nat → Nat → Except Fault (List (RenderCommand × List Nat))
  | 0, _, _ => .error .framing
  | fuel + 1, buf, c =>
    if c + recSize ≤ buf.length then
      match readCells buf c recSize with
      | .error e => .error e
      | .ok cells =>
        match parseRecord cells with
        | none => .error .framing
        | some cmd =>
          if cmd = .End then .ok []
          else
            let tn := cmd.trailerLen
            if c + recSize + tn ≤ buf.length then
              match readCells buf (c + recSize) tn with
              | .error e => .error e
              | .ok tr =>
                match decodeLoopAux fuel buf (c + recSize + tn) with
                | .error e => .error e
                | .ok rest => .ok ((cmd, tr) :: rest)
            else .error .framing
    else .error .framing

/-- The decode loop of command_encoder_run_render_pass (render.rs lines
931-958): before each record the cursor is checked against
`cursor + recSize ≤ buffer_end`; a record is read and parsed; its trailer
is bounds-checked and read; End terminates.  Returns the decoded records
paired with their trailers. -/
def decodeLoop (buf : List Nat) (c : Nat) :
    Except Fault (List (RenderCommand × List Nat)) :=
  decodeLoopAux (buf.length + 1 - c) buf c

/-- The full decode of a raw pass buffer (render.rs lines 410-420 then the
loop): first the RawRenderTargets header, bounds-checked against the
buffer end, then the record loop starting right after it. -/
def decodePass (buf : List Nat) :
    Except Fault (List Nat × List (RenderCommand × List Nat)) :=
  if targetsMaxSize ≤ buf.length then
    match readCells buf 0 targetsMaxSize with
    | .error e => .error e
    | .ok hdr =>
      match decodeLoop buf targetsMaxSize with
      | .error e => .error e
      | .ok ps => .ok (hdr, ps)
  else .error .framing

/-- RawPass::fill_render_commands (render.rs lines 203-219): encode each
record, and after a SetBindGroup record encode the next
`num_dynamic_offsets` entries of the flat offsets slice, advancing the
slice.  A slice shorter than the requested chunk is the panic of
`offsets[..n]`, modelled as `none`. -/
def fill_render_commands : List RenderCommand → List Nat → Option (List Nat)
  | [], _ => some []
  | c :: cs, offsets =>
    match c with
    | .SetBindGroup _ n _ =>
      if n ≤ offsets.length then
        (fill_render_commands cs (offsets.drop n)).map
          (fun rest => encodeCommand c ++ offsets.take n ++ rest)
      else none
    | _ =>
      (fill_render_commands cs offsets).map (fun rest => encodeCommand c ++ rest)

/-- RawPass::finish_render (render.rs lines 221-224): seal the encoded
body with the terminal End record. -/
def finish_render (body : List Nat) : List Nat :=
  body ++ encodeCommand .End

/-- The record/trailer pairs the decode loop is expected to reproduce:
each command paired with its dynamic-offset chunk (SetBindGroup) or with
an empty trailer. -/
def pairsOf : List RenderCommand → List Nat → Option (List (RenderCommand × List Nat))
  | [], _ => some []
  | c :: cs, offsets =>
    match c with
    | .SetBindGroup _ n _ =>
      if n ≤ offsets.length then
        (pairsOf cs (offsets.drop n)).map (fun rest => (c, offsets.take n) :: rest)
      else none
    | _ =>
      (pairsOf cs offsets).map (fun rest => (c, ([] : List Nat)) :: rest)

instance {ε α : Type} [DecidableEq ε] [DecidableEq α] : DecidableEq (Except ε α) :=
  fun x y =>
    match x, y with
    | .ok a, .ok b =>
      if h : a = b then isTrue (by rw [h]) else isFalse (fun hh => h (by cases hh; rfl))
    | .ok _, .error _ => isFalse (fun hh => Except.noConfusion hh)
    | .error _, .ok _ => isFalse (fun hh => Except.noConfusion hh)
    | .error a, .error b =>
      if h : a = b then isTrue (by rw [h]) else isFalse (fun hh => h (by cases hh; rfl))

/-! ### Validation state machine (render.rs lines 227-377) -/

/-- The three-state OptionalState of render.rs. -/
inductive OptionalState
  | Unused
  | Required
  | Set
deriving DecidableEq, Inhabited

/-- OptionalState::require (render.rs lines 235-239). -/
def OptionalState.require (s : OptionalState) (req : Bool) : OptionalState :=
  if req ∧ s = .Unused then .Required else s

/-- The DrawError enum of render.rs (lines 242-252). -/
inductive DrawError
  | MissingBlendColor
  | MissingStencilReference
  | MissingPipeline
  | IncompatibleBindGroup (index : Nat)
deriving DecidableEq, Inhabited

/-- u32::trailing_zeros, as used on the invalid-slot bitmask (render.rs
line 355): index of the lowest set bit (32 for the zero mask). -/
def trailingZeros (n : Nat) : Nat :=
  if n = 0 then 32
  else if n % 2 = 1 then 0
  else trailingZeros (n / 2) + 1
decreasing_by exact Nat.div_lt_self (Nat.pos_of_ne_zero (by assumption)) (by omega)

/-- Modelled from the spec: the Binder of command/bind.rs is not part of
the given sources.  Per the spec it tracks, per bind-group slot, the
bind-group-layout the bound pipeline expects and the layout of the group
actually provided; a slot is flagged incompatible when the provided group
is missing or its layout differs from the expected one. -/
structure Binder where
  pipeline_layout_id : Option Nat
  expected : List Nat
  provided : List (Option Nat)
deriving DecidableEq, Inhabited

/-- Modelled from the spec: the bitmask of incompatible bind-group slots,
bit i set exactly when slot i expects a layout the provided group does not
match (Binder::invalid_mask of command/bind.rs). -/
def Binder.invalidMask : List Nat → List (Option Nat) → Nat
  | [], _ => 0
  | _ :: es, [] => 1 + 2 * Binder.invalidMask es []
  | e :: es, p :: ps =>
    (if p = some e then 0 else 1) + 2 * Binder.invalidMask es ps

/-- The invalid-slot mask of a binder state. -/
def Binder.mask (b : Binder) : Nat :=
  Binder.invalidMask b.expected b.provided

/-- Modelled from the spec: Binder::reset, clearing all bind-group state. -/
def Binder.reset : Binder := ⟨none, [], []⟩

/-- Whether slot j of the binder is flagged incompatible: a layout is
expected there and the provided group is missing or mismatched. -/
def Binder.slotInvalid (b : Binder) (j : Nat) : Bool :=
  match b.expected.get? j with
  | none => false
  | some e =>
    match b.provided.get? j with
    | some (some l) => decide (l ≠ e)
    | _ => true

/-- IndexState of render.rs (lines 265-290): the bound buffer byte range,
the index element format and the derived element-count limit. -/
structure IndexState where
  bound_buffer_view : Option (Nat × Nat × Nat)
  format : IndexFormat
  limit : Nat
deriving DecidableEq, Inhabited

/-- IndexState::update_limit (render.rs lines 273-284): limit is the bound
byte length shifted down by the element-size shift, truncated `as u32`. -/
def IndexState.update_limit (s : IndexState) : IndexState :=
  { s with
    limit :=
      match s.bound_buffer_view with
      | some (_, st, en) =>
        let shift : Nat := match s.format with | .Uint16 => 1 | .Uint32 => 2
        ((en - st) >>> shift) % 2 ^ 32
      | none => 0 }

/-- IndexState::reset (render.rs lines 286-289). -/
def IndexState.reset (s : IndexState) : IndexState :=
  { s with bound_buffer_view := none, limit := 0 }

/-- VertexBufferState of render.rs (lines 292-305). -/
structure VertexBufferState where
  total_size : Nat
  stride : Nat
  rate : InputStepMode
deriving DecidableEq, Inhabited

/-- VertexBufferState::EMPTY. -/
def VertexBufferState.EMPTY : VertexBufferState :=
  ⟨0, 0, .Vertex⟩

/-- VertexState of render.rs (lines 307-335). -/
structure VertexState where
  inputs : List VertexBufferState
  vertex_limit : Nat
  instance_limit : Nat
deriving DecidableEq, Inhabited

/-- u32 maximum, the `!0` the limits start from in update_limits. -/
def u32max : Nat := 2 ^ 32 - 1

/-- One step of the update_limits loop: skip zero-stride slots, otherwise
fold `(total_size / stride) as u32` into the limit of the matching step
mode. -/
def limitStep (p : Nat × Nat) (vbs : VertexBufferState) : Nat × Nat :=
  if vbs.stride = 0 then p
  else
    let lim := (vbs.total_size / vbs.stride) % 2 ^ 32
    match vbs.rate with
    | .Vertex => (min p.1 lim, p.2)
    | .Instance => (p.1, min p.2 lim)

/-- VertexState::update_limits (render.rs lines 315-328). -/
def VertexState.update_limits (v : VertexState) : VertexState :=
  let r := v.inputs.foldl limitStep (u32max, u32max)
  { v with vertex_limit := r.1, instance_limit := r.2 }

/-- VertexState::reset (render.rs lines 330-334). -/
def VertexState.reset (_v : VertexState) : VertexState :=
  ⟨[], 0, 0⟩

/-- The State struct of render.rs (lines 337-346). -/
structure State where
  binder : Binder
  blend_color : OptionalState
  stencil_reference : OptionalState
  pipeline : OptionalState
  index : IndexState
  vertex : VertexState
  debug_scope_depth : Nat
deriving DecidableEq, Inhabited

/-- State::is_ready (render.rs lines 349-368): incompatible bind-group
slots are checked first (reporting the lowest set bit of the mask), then
the pipeline, then blend color, then stencil reference. -/
def State.is_ready (s : State) : Except DrawError Unit :=
  let bind_mask := s.binder.mask
  if bind_mask ≠ 0 then
    .error (.IncompatibleBindGroup (trailingZeros bind_mask))
  else if s.pipeline = .Required then .error .MissingPipeline
  else if s.blend_color = .Required then .error .MissingBlendColor
  else if s.stencil_reference = .Required then .error .MissingStencilReference
  else .ok ()

/-- State::reset_bundle (render.rs lines 371-376). -/
def State.reset_bundle (s : State) : State :=
  { s with
    binder := Binder.reset
    pipeline := .Required
    index := s.index.reset
    vertex := s.vertex.reset }

/-! ### Resource environment and the pass executor
(command_encoder_run_render_pass, render.rs lines 915-1358) -/

/-- The buffer usage capability bits consulted by the executor. -/
structure BufferUsage where
  INDEX : Bool
  VERTEX : Bool
  INDIRECT : Bool
deriving DecidableEq, Inhabited

/-- A buffer resource as the executor sees it: byte size and usage. -/
structure Buffer where
  size : Nat
  usage : BufferUsage
deriving DecidableEq, Inhabited

/-- The PipelineFlags bits consulted by the executor. -/
structure PipelineFlags where
  BLEND_COLOR : Bool
  STENCIL_REFERENCE : Bool
  DEPTH_STENCIL_READ_ONLY : Bool
deriving DecidableEq, Inhabited

/-- AttachmentData over texture formats (formats as Nat). -/
structure AttachmentDataFormats where
  colors : List Nat
  resolves : List Nat
  depth_stencil : Option Nat
deriving DecidableEq, Inhabited

/-- RenderPassContext: the attachment formats and sample count that
determine draw/bundle compatibility with a pass. -/
structure RenderPassContext where
  attachments : AttachmentDataFormats
  sample_count : Nat
deriving DecidableEq, Inhabited

/-- Modelled from the spec: RenderPassContext::compatible lives in
device/mod.rs, outside the given sources; per the spec a bundle or
pipeline is compatible exactly when its recorded pass-context equals the
active one. -/
def RenderPassContext.compatible (a b : RenderPassContext) : Bool :=
  a = b

/-- A render pipeline as the executor sees it. -/
structure RenderPipeline where
  pass_context : RenderPassContext
  flags : PipelineFlags
  index_format : IndexFormat
  vertex_strides : List (Nat × InputStepMode)
  layout_id : Nat
deriving DecidableEq, Inhabited

/-- A bind group as the executor sees it: its layout, its dynamic-offset
count, and the resource usages it records (abstract usage tokens). -/
structure BindGroup where
  layout_id : Nat
  dynamic_count : Nat
  used : List Nat
deriving DecidableEq, Inhabited

/-- A render bundle: recorded pass-context and recorded resource usages
(abstract usage tokens). -/
structure RenderBundle where
  context : RenderPassContext
  used : List Nat
deriving DecidableEq, Inhabited

/-- The registries and pass-level constants the executor reads: the
resource tables behind the hub locks, the active pass context, and the
depth-stencil-read-only flag computed while building the pass. -/
structure Env where
  buffers : Nat → Option Buffer
  render_pipelines : Nat → Option RenderPipeline
  pipeline_layouts : Nat → Option (List Nat)
  bind_groups : Nat → Option BindGroup
  bundles : Nat → Option RenderBundle
  context : RenderPassContext
  is_ds_read_only : Bool

/-- A fatal pass error: each distinct panic/validation failure of the
executor, mirroring the assert messages of render.rs. -/
inductive PassError
  | draw (e : DrawError)
  | unknownId
  | dynamicOffsetCountMismatch
  | incompatiblePipelineContext
  | dsReadOnlyPipeline
  | missingBufferUsage
  | vertexOutOfBounds
  | instanceOutOfBounds
  | indexOutOfBounds
  | incompatibleBundleContext
  | popEmptyDebugStack
deriving DecidableEq, Inhabited

/-- The hazard-tracker contents merged during the pass (abstract usage
tokens; TrackerSet::merge_extend appends a sub-scope usage list). -/
abbrev Trackers := List Nat

/-- Update the provided-group slot list of the binder at `i`, padding
missing lower slots with `none`. -/
def setProvided (l : List (Option Nat)) (i : Nat) (v : Nat) : List (Option Nat) :=
  let padded := l ++ List.replicate (i + 1 - l.length) none
  padded.set i (some v)

/-- One step of the executor dispatch loop: the match arm of
command_encoder_run_render_pass for one decoded record and its trailer.
Panics and validation failures are fatal errors. -/
def execCmd (env : Env) (s : State) (t : Trackers) :
    RenderCommand → List Nat → Except PassError (State × Trackers)
  | .SetBindGroup index _n bind_group_id, offsets =>
    match env.bind_groups bind_group_id with
    | none => .error .unknownId
    | some bg =>
      if bg.dynamic_count ≠ offsets.length then .error .dynamicOffsetCountMismatch
      else
        .ok ({ s with
                binder := { s.binder with
                  provided := setProvided s.binder.provided index bg.layout_id } },
              t ++ bg.used)
  | .SetPipeline pipeline_id, _ =>
    let s := { s with pipeline := OptionalState.Set }
    match env.render_pipelines pipeline_id with
    | none => .error .unknownId
    | some p =>
      if ¬ env.context.compatible p.pass_context then .error .incompatiblePipelineContext
      else if env.is_ds_read_only ∧ ¬ p.flags.DEPTH_STENCIL_READ_ONLY then
        .error .dsReadOnlyPipeline
      else
        let s := { s with
          blend_color := s.blend_color.require p.flags.BLEND_COLOR
          stencil_reference := s.stencil_reference.require p.flags.STENCIL_REFERENCE }
        match
          (if s.binder.pipeline_layout_id ≠ some p.layout_id then
            match env.pipeline_layouts p.layout_id with
            | none => .error .unknownId
            | some bgl_ids =>
              .ok { pipeline_layout_id := some p.layout_id
                    expected := bgl_ids
                    provided := s.binder.provided }
          else .ok s.binder : Except PassError Binder)
        with
        | .error e => .error e
        | .ok binder =>
          let s := { s with binder := binder }
          let index :=
            if s.index.format ≠ p.index_format then
              ({ s.index with format := p.index_format }).update_limit
            else s.index
          match
            (if s.index.format ≠ p.index_format then
              match index.bound_buffer_view with
              | some (buffer_id, _, _) =>
                match env.buffers buffer_id with
                | none => .error .unknownId
                | some _ => .ok ()
              | none => .ok ()
            else .ok () : Except PassError Unit)
          with
          | .error e => .error e
          | .ok () =>
            let s := { s with index := index }
            let inputs := s.vertex.inputs.enum.map (fun iv =>
              match p.vertex_strides.get? iv.1 with
              | some (stride, rate) => { iv.2 with stride := stride, rate := rate }
              | none => { iv.2 with stride := 0, rate := InputStepMode.Vertex })
            .ok ({ s with vertex := ({ s.vertex with inputs := inputs }).update_limits }, t)
  | .SetIndexBuffer buffer_id offset size, _ =>
    match env.buffers buffer_id with
    | none => .error .unknownId
    | some buffer =>
      if ¬ buffer.usage.INDEX then .error .missingBufferUsage
      else
        let en := if size ≠ WHOLE then offset + size else buffer.size
        let index :=
          ({ s.index with bound_buffer_view := some (buffer_id, offset, en) }).update_limit
        .ok ({ s with index := index }, t)
  | .SetVertexBuffer slot buffer_id offset size, _ =>
    match env.buffers buffer_id with
    | none => .error .unknownId
    | some buffer =>
      if ¬ buffer.usage.VERTEX then .error .missingBufferUsage
      else
        let inputs := s.vertex.inputs ++
          List.replicate (slot + 1 - s.vertex.inputs.length) VertexBufferState.EMPTY
        let total := if size ≠ WHOLE then size else buffer.size - offset
        let inputs := inputs.set slot
          { inputs.getD slot VertexBufferState.EMPTY with total_size := total }
        .ok ({ s with vertex := ({ s.vertex with inputs := inputs }).update_limits }, t)
  | .SetBlendColor _ _ _ _, _ =>
    .ok ({ s with blend_color := OptionalState.Set }, t)
  | .SetStencilReference _, _ =>
    .ok ({ s with stencil_reference := OptionalState.Set }, t)
  | .SetViewport _ _ _ _ _ _, _ => .ok (s, t)
  | .SetScissor _ _ _ _, _ => .ok (s, t)
  | .Draw vertex_count instance_count first_vertex first_instance, _ =>
    match s.is_ready with
    | .error e => .error (.draw e)
    | .ok () =>
      if ¬ (first_vertex + vertex_count) % 2 ^ 32 ≤ s.vertex.vertex_limit then
        .error .vertexOutOfBounds
      else if ¬ (first_instance + instance_count) % 2 ^ 32 ≤ s.vertex.instance_limit then
        .error .instanceOutOfBounds
      else .ok (s, t)
  | .DrawIndexed index_count instance_count first_index _ first_instance, _ =>
    match s.is_ready with
    | .error e => .error (.draw e)
    | .ok () =>
      if ¬ (first_index + index_count) % 2 ^ 32 ≤ s.index.limit then
        .error .indexOutOfBounds
      else if ¬ (first_instance + instance_count) % 2 ^ 32 ≤ s.vertex.instance_limit then
        .error .instanceOutOfBounds
      else .ok (s, t)
  | .DrawIndirect buffer_id _, _ =>
    match s.is_ready with
    | .error e => .error (.draw e)
    | .ok () =>
      match env.buffers buffer_id with
      | none => .error .unknownId
      | some buffer =>
        if ¬ buffer.usage.INDIRECT then .error .missingBufferUsage
        else .ok (s, t)
  | .DrawIndexedIndirect buffer_id _, _ =>
    match s.is_ready with
    | .error e => .error (.draw e)
    | .ok () =>
      match env.buffers buffer_id with
      | none => .error .unknownId
      | some buffer =>
        if ¬ buffer.usage.INDIRECT then .error .missingBufferUsage
        else .ok (s, t)
  | .PushDebugGroup _ _, _ =>
    .ok ({ s with debug_scope_depth := s.debug_scope_depth + 1 }, t)
  | .PopDebugGroup, _ =>
    if s.debug_scope_depth = 0 then .error .popEmptyDebugStack
    else .ok ({ s with debug_scope_depth := s.debug_scope_depth - 1 }, t)
  | .InsertDebugMarker _ _, _ => .ok (s, t)
  | .ExecuteBundle bundle_id, _ =>
    match env.bundles bundle_id with
    | none => .error .unknownId
    | some bundle =>
      if ¬ env.context.compatible bundle.context then .error .incompatibleBundleContext
      else .ok (s.reset_bundle, t ++ bundle.used)
  | .End, _ => .ok (s, t)

/-- The executor loop over a decoded record sequence. -/
def execPass (env : Env) (s : State) (t : Trackers) :
    List (RenderCommand × List Nat) → Except PassError (State × Trackers)
  | [] => .ok (s, t)
  | (c, tr) :: rest =>
    match execCmd env s t c tr with
    | .error e => .error e
    | .ok (s2, t2) => execPass env s2 t2 rest

/-- The initial validation state of a pass (render.rs lines 915-923). -/
def initState : State :=
  { binder := Binder.reset
    blend_color := .Unused
    stencil_reference := .Unused
    pipeline := .Required
    index := { bound_buffer_view := none, format := .Uint32, limit := 0 }
    vertex := ⟨[], 0, 0⟩
    debug_scope_depth := 0 }

/-- Commands whose fill_render_commands encoding decodes back to
themselves: End is the stream terminator (decode stops there), and the
debug-marker records must carry a zero-length label because
fill_render_commands never emits label trailers. -/
def encodable : RenderCommand → Bool
  | .End => false
  | .PushDebugGroup _ l => l = 0
  | .InsertDebugMarker _ l => l = 0
  | _ => true

/-- The dynamic-offset chunk a record consumes while encoding (the
`offsets[..n]` slice for SetBindGroup, nothing otherwise). -/
def dynChunk : RenderCommand → List Nat → Option (List Nat)
  | .SetBindGroup _ n _, offsets =>
    if n ≤ offsets.length then some (offsets.take n) else none
  | _, _ => some []

/-- The offsets remaining after a record has consumed its chunk. -/
def dynRest : RenderCommand → List Nat → List Nat
  | .SetBindGroup _ n _, offsets => offsets.drop n
  | _, offsets => offsets

/-- A pass context with no attachments, used in concrete scenarios. -/
def ctx0 : RenderPassContext := ⟨⟨[], [], none⟩, 1⟩

/-- A pipeline with an empty bind-group layout list that requires a blend
color. -/
def pBC : RenderPipeline := ⟨ctx0, ⟨true, false, false⟩, .Uint32, [], 0⟩

/-- A pipeline with an empty bind-group layout list that requires a
stencil reference (and no blend color). -/
def pSR : RenderPipeline := ⟨ctx0, ⟨false, true, false⟩, .Uint32, [], 0⟩

/-- An environment exposing pipeline 0 as pBC and pipeline 1 as pSR over
the empty pipeline layout 0. -/
def env0 : Env :=
  { buffers := fun _ => none
    render_pipelines := fun i => if i = 0 then some pBC else if i = 1 then some pSR else none
    pipeline_layouts := fun i => if i = 0 then some [] else none
    bind_groups := fun _ => none
    bundles := fun _ => none
    context := ctx0
    is_ds_read_only := false }

/-- A state whose binder expects layouts 5 and 6 but was provided layouts
5 and 9: slot 1 is the first incompatible slot. -/
def st1 : State :=
  { binder := ⟨some 0, [5, 6], [some 5, some 9]⟩
    blend_color := .Unused
    stencil_reference := .Unused
    pipeline := .Set
    index := ⟨none, .Uint32, 0⟩
    vertex := ⟨[], 0, 0⟩
    debug_scope_depth := 0 }

/-- Index element size in bytes: 2 for the 16-bit format, 4 for the
32-bit format (the shift of IndexState::update_limit as a divisor). -/
def elemSize : IndexFormat → Nat
  | .Uint16 => 2
  | .Uint32 => 4

/-- Stated from the spec, for comparison with VertexState::update_limits:
the vertex limit is the minimum over all bound slots with non-zero stride
and vertex step mode of the slot capacity (u32-truncated), the minimum of
no slots being the u32 maximum. -/
def specVertexLimit (inputs : List VertexBufferState) : Nat :=
  ((inputs.filter (fun v => decide (v.stride ≠ 0) && decide (v.rate = .Vertex))).map
    (fun v => (v.total_size / v.stride) % 2 ^ 32)).foldl min u32max

/-- Stated from the spec: the instance limit, the analogous minimum over
instance-rate slots. -/
def specInstanceLimit (inputs : List VertexBufferState) : Nat :=
  ((inputs.filter (fun v => decide (v.stride ≠ 0) && decide (v.rate = .Instance))).map
    (fun v => (v.total_size / v.stride) % 2 ^ 32)).foldl min u32max

/-! ### Depth-stencil read-only legality (render.rs lines 40-61) -/

/-- The depth/stencil aspects present in a texture-view format. -/
structure Aspects where
  DEPTH : Bool
  STENCIL : Bool
deriving DecidableEq, Inhabited

/-- RenderPassDepthStencilAttachmentDescriptor. -/
structure RenderPassDepthStencilAttachmentDescriptor where
  attachment : Nat
  depth_load_op : LoadOp
  depth_store_op : StoreOp
  clear_depth : Nat
  depth_read_only : Bool
  stencil_load_op : LoadOp
  stencil_store_op : StoreOp
  clear_stencil : Nat
  stencil_read_only : Bool
deriving DecidableEq, Inhabited

/-- The two assert messages of is_depth_stencil_read_only: clearing a
non-present or read-only depth (resp. stencil) aspect. -/
inductive DsAssert
  | clearNonReadOnlyDepth
  | clearNonReadOnlyStencil
deriving DecidableEq, Inhabited

/-- is_depth_stencil_read_only (render.rs lines 40-61), with the panics of
its asserts as errors: a present writable depth aspect short-circuits to
false; otherwise the depth ops must be Load/Store; then the same for
stencil; all checks passed means read-only. -/
def is_depth_stencil_read_only (desc : RenderPassDepthStencilAttachmentDescriptor)
    (aspects : Aspects) : Except DsAssert Bool :=
  if aspects.DEPTH ∧ ¬ desc.depth_read_only then .ok false
  else if ¬ (desc.depth_load_op = .Load ∧ desc.depth_store_op = .Store) then
    .error .clearNonReadOnlyDepth
  else if aspects.STENCIL ∧ ¬ desc.stencil_read_only then .ok false
  else if ¬ (desc.stencil_load_op = .Load ∧ desc.stencil_store_op = .Store) then
    .error .clearNonReadOnlyStencil
  else .ok true

/-- The texture usages an attachment can be given. -/
inductive TextureUse
  | ATTACHMENT_WRITE
  | ATTACHMENT_READ
deriving DecidableEq, Inhabited

/-- The depth-stencil usage selection of the executor (render.rs lines
513-518): read-only gives ATTACHMENT_READ and marks the pass
depth-stencil-read-only, otherwise ATTACHMENT_WRITE.  Returns the
is_ds_read_only flag together with the usage. -/
def depthStencilUse (desc : RenderPassDepthStencilAttachmentDescriptor)
    (aspects : Aspects) : Except DsAssert (Bool × TextureUse) :=
  match is_depth_stencil_read_only desc aspects with
  | .error e => .error e
  | .ok true => .ok (true, .ATTACHMENT_READ)
  | .ok false => .ok (false, .ATTACHMENT_WRITE)

/-! ### Color attachment and resolve-target processing
(render.rs lines 553-690) -/

/-- Backend image layouts distinguished by the swap-chain transitions. -/
inductive Layout
  | Undefined
  | Present
  | ColorAttachmentOptimal
deriving DecidableEq, Inhabited

/-- Modelled from the spec: conv::map_texture_state is outside the given
sources; for the color aspect every attachment usage maps to the
color-attachment layout. -/
def map_texture_state_color : TextureUse → Layout :=
  fun _ => .ColorAttachmentOptimal

/-- The inner of a texture view: a native texture or a presentable
swap-chain image, each with its source id. -/
inductive TextureViewInner
  | Native (source_id : Nat)
  | SwapChain (source_id : Nat)
deriving DecidableEq, Inhabited

/-- A texture view as the attachment phase sees it. -/
structure TextureView where
  inner : TextureViewInner
  extent : Nat
  samples : Nat
  format : Nat
deriving DecidableEq, Inhabited

/-- RenderPassColorAttachmentDescriptor. -/
structure RenderPassColorAttachmentDescriptor where
  attachment : Nat
  resolve_target : Option Nat
  load_op : LoadOp
  store_op : StoreOp
  clear_color : Nat
deriving DecidableEq, Inhabited

/-- The registries the attachment phase reads: the texture-view table and
the pre-pass usage recorded by the command-buffer trackers
(base_trackers.textures.query). -/
structure AttachEnv where
  views : Nat → Option TextureView
  prev_use : Nat → Option TextureUse

/-- Fatal errors of the attachment phase, mirroring its asserts. -/
inductive AttachError
  | unknownView
  | extentMismatch
  | sampleCountMismatch
  | resolveNotSingleSampled
  | swapChainMismatch
deriving DecidableEq, Inhabited

/-- The start layout of a swap-chain color attachment, derived from its
load op (render.rs lines 602-606): Clear starts from Undefined, Load
round-trips through Present. -/
def colorSwapStart : LoadOp → Layout
  | .Clear => .Undefined
  | .Load => .Present

/-- The at-most-one-swap-chain bookkeeping of the attachment loops
(render.rs lines 591-600 and 662-671): when the command buffer already
uses a swap chain every further swap-chain view must match it; otherwise
the first swap-chain view claims the local slot and any second one is
fatal. -/
def swapTrack (cmb_sc : Option Nat) (used_sc : Option Nat) (src : Nat) :
    Except AttachError (Option Nat) :=
  match cmb_sc with
  | some sc => if src ≠ sc then .error .swapChainMismatch else .ok used_sc
  | none => if used_sc.isSome then .error .swapChainMismatch else .ok (some src)

/-- The color-attachment loop of the executor (render.rs lines 553-622):
per attachment the view is resolved, the shared extent is set or checked,
the sample count is checked, and the layout transition is computed —
native attachments from the tracked previous usage, swap-chain
attachments from the load op while enforcing that at most one swap-chain
image is used (and that it matches the command buffer when one is already
in use). -/
def processColors (ae : AttachEnv) (cmb_sc : Option Nat) (sample_count : Nat) :
    List RenderPassColorAttachmentDescriptor → Option Nat → Option Nat →
      Except AttachError (Option Nat × Option Nat × List (Layout × Layout))
  | [], used_sc, extent => .ok (used_sc, extent, [])
  | a :: rest, used_sc, extent =>
    match ae.views a.attachment with
    | none => .error .unknownView
    | some view =>
      match (match extent with
             | some ex =>
               if ex = view.extent then Except.ok (some ex)
               else Except.error AttachError.extentMismatch
             | none => Except.ok (some view.extent) : Except AttachError (Option Nat)) with
      | .error e => .error e
      | .ok extent2 =>
        if view.samples ≠ sample_count then .error .sampleCountMismatch
        else
          match (match view.inner with
                 | .Native src =>
                   let new_layout := map_texture_state_color .ATTACHMENT_WRITE
                   let old_layout :=
                     match ae.prev_use src with
                     | some u => map_texture_state_color u
                     | none => new_layout
                   Except.ok (used_sc, (old_layout, new_layout))
                 | .SwapChain src =>
                   match swapTrack cmb_sc used_sc src with
                   | .error e => Except.error e
                   | .ok u2 => Except.ok (u2, (colorSwapStart a.load_op, Layout.Present))
                 : Except AttachError (Option Nat × (Layout × Layout))) with
          | .error e => .error e
          | .ok (used_sc2, lay) =>
            match processColors ae cmb_sc sample_count rest used_sc2 extent2 with
            | .error e => .error e
            | .ok (u3, e3, ls) => .ok (u3, e3, lay :: ls)

/-- The resolve-target loop of the executor (render.rs lines 624-690):
per resolve target the view is resolved, the extent must equal the shared
extent, the view must be single-sampled, and a swap-chain resolve target
goes through the same at-most-one-swap-chain bookkeeping with the fixed
Undefined-to-Present transition. -/
def processResolves (ae : AttachEnv) (cmb_sc : Option Nat) :
    List Nat → Option Nat → Option Nat →
      Except AttachError (Option Nat × List (Layout × Layout))
  | [], used_sc, _extent => .ok (used_sc, [])
  | rid :: rest, used_sc, extent =>
    match ae.views rid with
    | none => .error .unknownView
    | some view =>
      if extent ≠ some view.extent then .error .extentMismatch
      else if view.samples ≠ 1 then .error .resolveNotSingleSampled
      else
        match (match view.inner with
               | .Native src =>
                 let new_layout := map_texture_state_color .ATTACHMENT_WRITE
                 let old_layout :=
                   match ae.prev_use src with
                   | some u => map_texture_state_color u
                   | none => new_layout
                 Except.ok (used_sc, (old_layout, new_layout))
               | .SwapChain src =>
                 match swapTrack cmb_sc used_sc src with
                 | .error e => Except.error e
                 | .ok u2 => Except.ok (u2, (Layout.Undefined, Layout.Present))
               : Except AttachError (Option Nat × (Layout × Layout))) with
        | .error e => .error e
        | .ok (used_sc2, lay) =>
          match processResolves ae cmb_sc rest used_sc2 extent with
          | .error e => .error e
          | .ok (u3, ls) => .ok (u3, lay :: ls)

/-- The whole attachment phase: the color loop from no extent and no used
swap chain, then the resolve loop over the declared resolve targets. -/
def processAttachments (ae : AttachEnv) (cmb_sc : Option Nat) (sample_count : Nat)
    (colors : List RenderPassColorAttachmentDescriptor) :
    Except AttachError (Option Nat × List (Layout × Layout) × List (Layout × Layout)) :=
  match processColors ae cmb_sc sample_count colors none none with
  | .error e => .error e
  | .ok (used_sc, extent, color_layouts) =>
    match processResolves ae cmb_sc (colors.filterMap (fun a => a.resolve_target))
        used_sc extent with
    | .error e => .error e
    | .ok (u2, resolve_layouts) => .ok (u2, color_layouts, resolve_layouts)

/-- The swap-chain source id a view id refers to, when it does. -/
def swapSourceOf (ae : AttachEnv) (id : Nat) : Option Nat :=
  match ae.views id with
  | some v =>
    match v.inner with
    | .SwapChain s => some s
    | .Native _ => none
  | none => none

/-- All swap-chain source ids referenced by the color attachments and
resolve targets of a pass, in processing order. -/
def swapSources (ae : AttachEnv)
    (colors : List RenderPassColorAttachmentDescriptor) : List Nat :=
  colors.filterMap (fun a => swapSourceOf ae a.attachment) ++
    (colors.filterMap (fun a => a.resolve_target)).filterMap (swapSourceOf ae)

/-! ### Concrete resources for scenario instances -/

/-- A large buffer (2^34 bytes) with all usages, for the u32-truncation
instances. -/
def bufBig : Buffer := ⟨2 ^ 34, ⟨true, true, true⟩⟩

/-- An environment exposing bufBig as buffer 0. -/
def envBig : Env :=
  { buffers := fun i => if i = 0 then some bufBig else none
    render_pipelines := fun _ => none
    pipeline_layouts := fun _ => none
    bind_groups := fun _ => none
    bundles := fun _ => none
    context := ctx0
    is_ds_read_only := false }

/-- A 2^33-byte buffer with all usages. -/
def bufV : Buffer := ⟨2 ^ 33, ⟨true, true, true⟩⟩

/-- A pipeline declaring one vertex-rate slot of stride 1 over the empty
layout. -/
def pStride1 : RenderPipeline := ⟨ctx0, ⟨false, false, false⟩, .Uint32, [(1, .Vertex)], 0⟩

/-- An environment exposing bufV as buffer 0 and pStride1 as pipeline 0. -/
def envV : Env :=
  { buffers := fun i => if i = 0 then some bufV else none
    render_pipelines := fun i => if i = 0 then some pStride1 else none
    pipeline_layouts := fun i => if i = 0 then some [] else none
    bind_groups := fun _ => none
    bundles := fun _ => none
    context := ctx0
    is_ds_read_only := false }

/-- A draw-ready state: empty compatible binder, pipeline set, index limit
5, vertex limit 10, instance limit 20. -/
def stReady : State :=
  { binder := ⟨some 0, [], []⟩
    blend_color := .Unused
    stencil_reference := .Unused
    pipeline := .Set
    index := ⟨some (0, 0, 20), .Uint32, 5⟩
    vertex := ⟨[], 10, 20⟩
    debug_scope_depth := 0 }

/-- A bundle recorded against ctx0 that used resource token 42. -/
def bundle0 : RenderBundle := ⟨ctx0, [42]⟩

/-- A pass context different from ctx0. -/
def ctx1 : RenderPassContext := ⟨⟨[7], [], none⟩, 1⟩

/-- A bundle recorded against the incompatible context ctx1. -/
def bundleBad : RenderBundle := ⟨ctx1, []⟩

/-- An environment exposing bundle0 as bundle 0, bundleBad as bundle 1,
and pBC as pipeline 0, under the active context ctx0. -/
def envBn : Env :=
  { buffers := fun _ => none
    render_pipelines := fun i => if i = 0 then some pBC else none
    pipeline_layouts := fun i => if i = 0 then some [] else none
    bind_groups := fun _ => none
    bundles := fun i => if i = 0 then some bundle0 else if i = 1 then some bundleBad else none
    context := ctx0
    is_ds_read_only := false }

/-- A depth-stencil descriptor with a writable depth aspect and a
read-only stencil aspect whose load op clears. -/
def dsCex : RenderPassDepthStencilAttachmentDescriptor :=
  ⟨0, .Load, .Store, 0, false, .Clear, .Store, 0, true⟩

/-- A read-only depth-stencil descriptor with Load/Store ops on both
aspects. -/
def dsRO : RenderPassDepthStencilAttachmentDescriptor :=
  ⟨0, .Load, .Store, 0, true, .Load, .Store, 0, true⟩

/-- An attachment environment: view 0 is a native texture, views 1 and 2
are swap-chain images of sources 100 and 200, all extent 64, one sample. -/
def aeW : AttachEnv :=
  { views := fun i =>
      if i = 0 then some ⟨.Native 5, 64, 1, 0⟩
      else if i = 1 then some ⟨.SwapChain 100, 64, 1, 0⟩
      else if i = 2 then some ⟨.SwapChain 200, 64, 1, 0⟩
      else none
    prev_use := fun _ => none }

/-- A color attachment on view id, with an optional resolve target. -/
def colorAtt (id : Nat) (rt : Option Nat) (lo : LoadOp) : RenderPassColorAttachmentDescriptor :=
  ⟨id, rt, lo, .Store, 0⟩

/-- The state after binding a 16-byte vertex buffer at slot 2 of the
initial state: slots 0 and 1 are zero-stride placeholders. -/
def sW : State :=
  { initState with
    vertex := ⟨[VertexBufferState.EMPTY, VertexBufferState.EMPTY, ⟨16, 0, .Vertex⟩],
      u32max, u32max⟩ }

/-- The initial state with a blend color already set. -/
def stBlend : State := { initState with blend_color := .Set }

/-! ### Codec lemmas -/

/-- Every encoded record occupies exactly `recSize` cells. -/
theorem encLen (c : RenderCommand) : (encodeCommand c).length = recSize := by
  cases c <;> rfl

/-- Parsing is a left inverse of encoding. -/
theorem parse_encode (c : RenderCommand) : parseRecord (encodeCommand c) = some c := by
  cases c <;> rfl

/-- A guarded multi-cell read whose end is within the buffer succeeds and
returns the corresponding slice. -/
theorem readCells_ok :
    ∀ (n : Nat) (buf : List Nat) (i : Nat), i + n ≤ buf.length →
      readCells buf i n = .ok ((buf.drop i).take n) := by
  intro n
  induction n with
  | zero => intro buf i _; simp [readCells]
  | succ n ih =>
    intro buf i h
    have hi : i < buf.length := by omega
    have hcell : readCell buf i = .ok buf[i] := by
      simp [readCell, List.getElem?_eq_getElem hi]
    have hs : (List.drop i buf).take (n + 1) = buf[i] :: (List.drop (i + 1) buf).take n := by
      rw [List.drop_eq_getElem_cons hi, List.take_succ_cons]
    rw [readCells, hs]
    rw [hcell, ih buf (i + 1) (by omega)]
    rfl

/-- One unfolding step of the decode loop when the record bounds check
passes: the record slice is read and parsed. -/
theorem decodeLoopAux_step (fuel : Nat) (buf : List Nat) (c : Nat)
    (h1 : c + recSize ≤ buf.length) :
    decodeLoopAux (fuel + 1) buf c =
      match parseRecord ((buf.drop c).take recSize) with
      | none => .error .framing
      | some cmd =>
        if cmd = .End then .ok []
        else if c + recSize + cmd.trailerLen ≤ buf.length then
          match readCells buf (c + recSize) cmd.trailerLen with
          | .error e => .error e
          | .ok tr =>
            match decodeLoopAux fuel buf (c + recSize + cmd.trailerLen) with
            | .error e => .error e
            | .ok rest => .ok ((cmd, tr) :: rest)
        else .error .framing := by
  rw [decodeLoopAux, if_pos h1, readCells_ok _ _ _ h1]

/-- The decode loop never performs an out-of-bounds read: every record and
trailer read happens under a bounds check that guarantees it succeeds. -/
theorem decodeLoopAux_ne_oob (fuel : Nat) :
    ∀ (buf : List Nat) (c : Nat), decodeLoopAux fuel buf c ≠ .error .oob := by
  induction fuel with
  | zero => intro buf c; simp [decodeLoopAux]
  | succ fuel ih =>
    intro buf c
    by_cases h1 : c + recSize ≤ buf.length
    · rw [decodeLoopAux_step fuel buf c h1]
      cases hp : parseRecord ((buf.drop c).take recSize) with
      | none => simp
      | some cmd =>
        simp only
        by_cases he : cmd = .End
        · rw [if_pos he]; simp
        · rw [if_neg he]
          by_cases h2 : c + recSize + cmd.trailerLen ≤ buf.length
          · rw [if_pos h2, readCells_ok _ _ _ h2]
            cases hd : decodeLoopAux fuel buf (c + recSize + cmd.trailerLen) with
            | error e =>
              simp only
              intro hc
              exact ih buf _ (by rw [hd]; cases hc; rfl)
            | ok rest => simp
          · rw [if_neg h2]; simp
    · rw [decodeLoopAux, if_neg h1]; simp

/-- A cursor too close to the buffer end for one full record is rejected
by the framing check before any cell is read. -/
theorem decodeLoop_short_framing (buf : List Nat) (c : Nat)
    (h : buf.length < c + recSize) : decodeLoop buf c = .error .framing := by
  rw [decodeLoop]
  cases hf : buf.length + 1 - c with
  | zero => simp [decodeLoopAux]
  | succ fuel => rw [decodeLoopAux, if_neg (by omega)]



/-- Unfolding of fill_render_commands on a cons, via the chunk helpers. -/
theorem fill_cons (c : RenderCommand) (cs : List RenderCommand) (offsets : List Nat) :
    fill_render_commands (c :: cs) offsets =
      match dynChunk c offsets with
      | none => none
      | some ch =>
        (fill_render_commands cs (dynRest c offsets)).map
          (fun rest => encodeCommand c ++ ch ++ rest) := by
  cases c <;> simp [fill_render_commands, dynChunk, dynRest]
  split <;> simp

/-- Unfolding of pairsOf on a cons, via the chunk helpers. -/
theorem pairsOf_cons (c : RenderCommand) (cs : List RenderCommand) (offsets : List Nat) :
    pairsOf (c :: cs) offsets =
      match dynChunk c offsets with
      | none => none
      | some ch =>
        (pairsOf cs (dynRest c offsets)).map (fun rest => (c, ch) :: rest) := by
  cases c <;> simp [pairsOf, dynChunk, dynRest]
  split <;> simp

/-- For an encodable command the consumed chunk has exactly the length the
decoder will read back as the trailer. -/
theorem dynChunk_len (c : RenderCommand) (offsets ch : List Nat)
    (henc : encodable c = true) (hch : dynChunk c offsets = some ch) :
    ch.length = c.trailerLen ∧ c ≠ .End := by
  cases c <;> simp_all [encodable, dynChunk, RenderCommand.trailerLen]
  · rename_i n _
    rcases hch with ⟨hn, rfl⟩
    simp [List.length_take]
    omega

/-- Slicing a middle segment out of an append. -/
theorem slice_at (pre mid rest : List Nat) :
    ((pre ++ (mid ++ rest)).drop pre.length).take mid.length = mid := by
  rw [List.drop_left]
  exact List.take_left mid rest

/-- Round trip of the codec: an encodable command sequence written by
fill_render_commands and sealed by finish_render decodes, from any
position after any prefix, to exactly its record/trailer pairs. -/
theorem decode_fill :
    ∀ (cmds : List RenderCommand) (offsets body : List Nat)
      (ps : List (RenderCommand × List Nat)) (pre : List Nat) (fuel : Nat),
      fill_render_commands cmds offsets = some body →
      pairsOf cmds offsets = some ps →
      cmds.all encodable = true →
      cmds.length < fuel →
      decodeLoopAux fuel (pre ++ (body ++ encodeCommand .End)) pre.length = .ok ps := by
  intro cmds
  induction cmds with
  | nil =>
    intro offsets body ps pre fuel hfill hpairs _ hfuel
    have hb : body = [] := by
      simp [fill_render_commands] at hfill
      exact hfill
    have hp : ps = [] := by
      simp [pairsOf] at hpairs
      exact hpairs
    subst hb
    subst hp
    obtain ⟨f, rfl⟩ : ∃ f, fuel = f + 1 := ⟨fuel - 1, by omega⟩
    have h1 : pre.length + recSize ≤ (pre ++ ([] ++ encodeCommand .End)).length := by
      simp [encLen]
    rw [decodeLoopAux_step _ _ _ h1]
    have hs : (((pre ++ ([] ++ encodeCommand .End)).drop pre.length).take recSize) =
        encodeCommand .End := by
      rw [← encLen .End]
      simp
    rw [hs, parse_encode]
    simp
  | cons c cs ih =>
    intro offsets body ps pre fuel hfill hpairs hwf hfuel
    rw [fill_cons] at hfill
    rw [pairsOf_cons] at hpairs
    cases hch : dynChunk c offsets with
    | none => rw [hch] at hfill; cases hfill
    | some ch =>
      rw [hch] at hfill hpairs
      cases hbody : fill_render_commands cs (dynRest c offsets) with
      | none => rw [hbody] at hfill; cases hfill
      | some body2 =>
        rw [hbody] at hfill
        cases hps : pairsOf cs (dynRest c offsets) with
        | none => rw [hps] at hpairs; cases hpairs
        | some ps2 =>
          rw [hps] at hpairs
          simp only [Option.map_some', Option.some.injEq] at hfill hpairs
          rw [List.all_cons, Bool.and_eq_true] at hwf
          have hwf1 : encodable c = true := hwf.1
          have hwf2 : cs.all encodable = true := hwf.2
          obtain ⟨hchlen, hcne⟩ := dynChunk_len c offsets ch hwf1 hch
          subst hfill
          subst hpairs
          obtain ⟨f, rfl⟩ : ∃ f, fuel = f + 1 := ⟨fuel - 1, by omega⟩
          have e1 : pre ++ ((encodeCommand c ++ ch ++ body2) ++ encodeCommand .End) =
              pre ++ (encodeCommand c ++ (ch ++ (body2 ++ encodeCommand .End))) := by
            simp [List.append_assoc]
          rw [e1]
          have hlen : (pre ++ (encodeCommand c ++ (ch ++ (body2 ++ encodeCommand .End)))).length =
              pre.length + recSize + (ch.length + (body2.length + recSize)) := by
            simp [encLen]
            omega
          have h1 : pre.length + recSize ≤
              (pre ++ (encodeCommand c ++ (ch ++ (body2 ++ encodeCommand .End)))).length := by
            rw [hlen]; omega
          rw [decodeLoopAux_step _ _ _ h1]
          have hs1 :
              (((pre ++ (encodeCommand c ++ (ch ++ (body2 ++ encodeCommand .End)))).drop
                pre.length).take recSize) = encodeCommand c := by
            rw [← encLen c]
            exact slice_at pre (encodeCommand c) _
          rw [hs1, parse_encode]
          simp only
          rw [if_neg hcne, ← hchlen]
          have h2 : pre.length + recSize + ch.length ≤
              (pre ++ (encodeCommand c ++ (ch ++ (body2 ++ encodeCommand .End)))).length := by
            rw [hlen]; omega
          rw [if_pos h2, readCells_ok _ _ _ h2]
          have e2 : pre ++ (encodeCommand c ++ (ch ++ (body2 ++ encodeCommand .End))) =
              (pre ++ encodeCommand c) ++ (ch ++ (body2 ++ encodeCommand .End)) := by
            simp [List.append_assoc]
          have e3 : pre.length + recSize = (pre ++ encodeCommand c).length := by
            simp [encLen]
          have hs2 :
              (((pre ++ (encodeCommand c ++ (ch ++ (body2 ++ encodeCommand .End)))).drop
                (pre.length + recSize)).take ch.length) = ch := by
            rw [e2, e3]
            exact slice_at (pre ++ encodeCommand c) ch _
          rw [hs2]
          have e4 : pre ++ (encodeCommand c ++ (ch ++ (body2 ++ encodeCommand .End))) =
              ((pre ++ encodeCommand c) ++ ch) ++ (body2 ++ encodeCommand .End) := by
            simp [List.append_assoc]
          have e5 : pre.length + recSize + ch.length =
              ((pre ++ encodeCommand c) ++ ch).length := by
            simp [encLen]
            omega
          have hrec :
              decodeLoopAux f
                (pre ++ (encodeCommand c ++ (ch ++ (body2 ++ encodeCommand .End))))
                (pre.length + recSize + ch.length) = .ok ps2 := by
            rw [e4, e5]
            exact ih (dynRest c offsets) body2 ps2 _ f hbody hps hwf2
              (by simp at hfuel; omega)
          rw [hrec]

/-- An encoded body is at least as long as its command list. -/
theorem fill_length :
    ∀ (cmds : List RenderCommand) (offsets body : List Nat),
      fill_render_commands cmds offsets = some body → cmds.length ≤ body.length := by
  intro cmds
  induction cmds with
  | nil => intro offsets body h; simp
  | cons c cs ih =>
    intro offsets body h
    rw [fill_cons] at h
    cases hch : dynChunk c offsets with
    | none => rw [hch] at h; cases h
    | some ch =>
      rw [hch] at h
      cases hbody : fill_render_commands cs (dynRest c offsets) with
      | none => rw [hbody] at h; cases h
      | some body2 =>
        rw [hbody] at h
        simp only [Option.map_some', Option.some.injEq] at h
        subst h
        have := ih (dynRest c offsets) body2 hbody
        simp [encLen, recSize]
        omega

/-- C2 (amended): for every sequence of encodable RenderCommand records
(no mid-sequence End, debug-marker records with zero-length labels, since
fill_render_commands never emits label trailers) together with a
dynamic-offset slice long enough for every SetBindGroup chunk, encoding
with fill_render_commands / finish_render and decoding with the executor
peek loop yields exactly the same records with the same trailer contents
in the same order, terminated by the End record. -/
theorem C2_roundtrip (cmds : List RenderCommand) (offsets body : List Nat)
    (ps : List (RenderCommand × List Nat))
    (hfill : fill_render_commands cmds offsets = some body)
    (hpairs : pairsOf cmds offsets = some ps)
    (hwf : cmds.all encodable = true) :
    decodeLoop (finish_render body) 0 = .ok ps := by
  rw [decodeLoop, finish_render]
  have hlen := fill_length cmds offsets body hfill
  have h := decode_fill cmds offsets body ps []
    ((body ++ encodeCommand .End).length + 1 - 0) hfill hpairs hwf
    (by simp [encLen, recSize]; omega)
  simpa using h

/-- Witness for C2: a SetBindGroup record with a two-entry dynamic-offset
trailer followed by a Draw record rounds-trip through the codec. -/
theorem C2_roundtrip_witness :
    fill_render_commands [.SetBindGroup 0 2 7, .Draw 3 1 0 0] [10, 20] =
        some [0, 0, 2, 7, 0, 0, 0, 10, 20, 8, 3, 1, 0, 0, 0, 0] ∧
    pairsOf [.SetBindGroup 0 2 7, .Draw 3 1 0 0] [10, 20] =
        some [(.SetBindGroup 0 2 7, [10, 20]), (.Draw 3 1 0 0, [])] ∧
    decodeLoop (finish_render [0, 0, 2, 7, 0, 0, 0, 10, 20, 8, 3, 1, 0, 0, 0, 0]) 0 =
        .ok [(.SetBindGroup 0 2 7, [10, 20]), (.Draw 3 1 0 0, [])] :=
  ⟨by decide, by decide,
    C2_roundtrip [.SetBindGroup 0 2 7, .Draw 3 1 0 0] [10, 20] _ _
      (by decide) (by decide) (by decide)⟩

/-- C2 counterexample: a PushDebugGroup record with a nonzero label length
does not round-trip: fill_render_commands never writes the label trailer,
so the decoder misreads the following End record as label bytes and then
fails with a framing error instead of returning the sequence. -/
theorem C2_counterexample :
    fill_render_commands [.PushDebugGroup 0 1] [] = some [12, 0, 1, 0, 0, 0, 0] ∧
    pairsOf [.PushDebugGroup 0 1] [] = some [(.PushDebugGroup 0 1, [])] ∧
    decodeLoop (finish_render [12, 0, 1, 0, 0, 0, 0]) 0 = .error .framing := by
  decide

/-- C3: all executor reads are bounds-checked.  The full decode of any
byte buffer never performs an out-of-bounds cell read; a buffer too short
for the RawRenderTargets header is a framing error before any record is
read; a cursor with less than one maximal record size of remaining buffer
is a framing error; and the record loop itself never reads out of bounds
from any cursor with any fuel. -/
theorem C3_decode_bounds :
    (∀ buf : List Nat, decodePass buf ≠ .error .oob) ∧
    (∀ buf : List Nat, buf.length < targetsMaxSize → decodePass buf = .error .framing) ∧
    (∀ (buf : List Nat) (c : Nat), buf.length < c + recSize →
      decodeLoop buf c = .error .framing) ∧
    (∀ (fuel : Nat) (buf : List Nat) (c : Nat), decodeLoopAux fuel buf c ≠ .error .oob) := by
  have loop_ne : ∀ (buf : List Nat) (c : Nat), decodeLoop buf c ≠ .error .oob :=
    fun buf c => decodeLoopAux_ne_oob _ buf c
  refine ⟨?_, ?_, fun buf c h => decodeLoop_short_framing buf c h,
    fun fuel buf c => decodeLoopAux_ne_oob fuel buf c⟩
  · intro buf
    rw [decodePass]
    by_cases h : targetsMaxSize ≤ buf.length
    · rw [if_pos h, readCells_ok _ _ _ (by omega)]
      cases hd : decodeLoop buf targetsMaxSize with
      | error e =>
        simp only [hd]
        intro hc
        cases hc
        exact loop_ne buf targetsMaxSize hd
      | ok ps => simp [hd]
    · rw [if_neg h]; simp
  · intro buf h
    rw [decodePass, if_neg (by omega)]

/-- Witness for C3: concrete short buffers are rejected as framing errors,
and a concrete decode stays in bounds. -/
theorem C3_decode_bounds_witness :
    decodePass [1, 2, 3] = .error .framing ∧
    decodeLoop [1, 2, 3] 0 = .error .framing ∧
    decodePass (List.replicate 45 0 ++ encodeCommand .End) ≠ .error .oob :=
  ⟨C3_decode_bounds.2.1 [1, 2, 3] (by decide),
    C3_decode_bounds.2.2.1 [1, 2, 3] 0 (by decide),
    C3_decode_bounds.1 _⟩

/-! ### Bit-level lemmas for the invalid-slot mask -/

/-- Bit zero of `b + 2 * m` for a one-bit `b`. -/
theorem testBit_bit0 (b m : Nat) (hb : b ≤ 1) :
    Nat.testBit (b + 2 * m) 0 = decide (b = 1) := by
  simp only [Nat.testBit_to_div_mod, pow_zero, Nat.div_one, decide_eq_decide]
  omega

/-- Higher bits of `b + 2 * m` for a one-bit `b` are the bits of `m`. -/
theorem testBit_bitS (b m j : Nat) (hb : b ≤ 1) :
    Nat.testBit (b + 2 * m) (j + 1) = Nat.testBit m j := by
  have h2 : (b + 2 * m) / 2 ^ (j + 1) = m / 2 ^ j := by
    rw [pow_succ, mul_comm (2 ^ j) 2, ← Nat.div_div_eq_div_mul]
    have hh : (b + 2 * m) / 2 = m := by omega
    rw [hh]
  rw [Nat.testBit_to_div_mod, Nat.testBit_to_div_mod, h2]

/-- Bit j of the invalid mask is set exactly when slot j is flagged
incompatible. -/
theorem invalidMask_testBit :
    ∀ (es : List Nat) (ps : List (Option Nat)) (plid : Option Nat) (j : Nat),
      Nat.testBit (Binder.invalidMask es ps) j =
        Binder.slotInvalid ⟨plid, es, ps⟩ j := by
  intro es
  induction es with
  | nil => intro ps plid j; simp [Binder.invalidMask, Binder.slotInvalid]
  | cons e es ih =>
    intro ps plid j
    cases ps with
    | nil =>
      cases j with
      | zero =>
        rw [Binder.invalidMask, testBit_bit0 _ _ (by omega)]
        simp [Binder.slotInvalid]
      | succ j =>
        rw [Binder.invalidMask, testBit_bitS _ _ _ (by omega)]
        rw [ih [] plid j]
        simp [Binder.slotInvalid]
    | cons p ps =>
      cases j with
      | zero =>
        rw [Binder.invalidMask, testBit_bit0 _ _ (by split <;> omega)]
        by_cases hp : p = some e
        · subst hp; simp [Binder.slotInvalid]
        · cases p with
          | none => simp [Binder.slotInvalid, hp]
          | some l =>
            simp only [Binder.slotInvalid, List.get?_cons_zero, if_neg hp]
            simp
            intro hle
            exact hp (by rw [hle])
      | succ j =>
        rw [Binder.invalidMask, testBit_bitS _ _ _ (by split <;> omega)]
        rw [ih ps plid j]
        simp [Binder.slotInvalid]

/-- u32::trailing_zeros of a nonzero mask names its lowest set bit. -/
theorem trailingZeros_spec :
    ∀ n : Nat, n ≠ 0 →
      Nat.testBit n (trailingZeros n) = true ∧
      ∀ j, j < trailingZeros n → Nat.testBit n j = false := by
  intro n
  induction n using Nat.strong_induction_on with
  | _ n ih =>
    intro hn
    rw [trailingZeros]
    by_cases h2 : n % 2 = 1
    · rw [if_neg hn, if_pos h2]
      refine ⟨?_, fun j hj => by omega⟩
      rw [Nat.testBit_to_div_mod]
      simp
      omega
    · rw [if_neg hn, if_neg h2]
      have hdlt : n / 2 < n := Nat.div_lt_self (Nat.pos_of_ne_zero hn) (by omega)
      have hhalf : n / 2 ≠ 0 := by omega
      obtain ⟨ih1, ih2⟩ := ih (n / 2) hdlt hhalf
      set m := n / 2 with hm
      have hn2 : n = 0 + 2 * m := by omega
      constructor
      · rw [hn2, testBit_bitS _ _ _ (by omega)]
        exact ih1
      · intro j hj
        cases j with
        | zero =>
          rw [Nat.testBit_to_div_mod]
          simp
          omega
        | succ j =>
          rw [hn2, testBit_bitS _ _ _ (by omega)]
          exact ih2 j (by omega)



/-- C1: a draw is executed only when no bind-group slot is incompatible,
the pipeline is set, and neither blend color nor stencil reference is
still Required; otherwise is_ready fails with exactly the corresponding
error, IncompatibleBindGroup (carrying the lowest invalid slot index,
witnessed on the slot flags) before MissingPipeline before
MissingBlendColor before MissingStencilReference; every draw-family
executor arm propagates the readiness error; a Draw with no prior
SetPipeline fails with MissingPipeline, and a Draw after a pipeline
requiring blend color (resp. stencil reference) with no SetBlendColor
(resp. SetStencilReference) fails with MissingBlendColor (resp.
MissingStencilReference). -/
theorem C1_draw_readiness :
    (∀ s : State, s.is_ready = .ok () ↔
      (s.binder.mask = 0 ∧ s.pipeline ≠ .Required ∧ s.blend_color ≠ .Required ∧
        s.stencil_reference ≠ .Required)) ∧
    (∀ s : State, s.binder.mask ≠ 0 →
      s.is_ready = .error (.IncompatibleBindGroup (trailingZeros s.binder.mask)) ∧
      s.binder.slotInvalid (trailingZeros s.binder.mask) = true ∧
      ∀ j, j < trailingZeros s.binder.mask → s.binder.slotInvalid j = false) ∧
    (∀ s : State, s.binder.mask = 0 → s.pipeline = .Required →
      s.is_ready = .error .MissingPipeline) ∧
    (∀ s : State, s.binder.mask = 0 → s.pipeline ≠ .Required →
      s.blend_color = .Required → s.is_ready = .error .MissingBlendColor) ∧
    (∀ s : State, s.binder.mask = 0 → s.pipeline ≠ .Required →
      s.blend_color ≠ .Required → s.stencil_reference = .Required →
      s.is_ready = .error .MissingStencilReference) ∧
    (∀ (env : Env) (s : State) (t : Trackers) (e : DrawError)
        (c : RenderCommand) (tr : List Nat),
      ((∃ a b d f, c = .Draw a b d f) ∨ (∃ a b d f g, c = .DrawIndexed a b d f g) ∨
        (∃ a b, c = .DrawIndirect a b) ∨ (∃ a b, c = .DrawIndexedIndirect a b)) →
      s.is_ready = .error e → execCmd env s t c tr = .error (.draw e)) ∧
    (∀ (env : Env) (t : Trackers) (a b d f : Nat) (tr : List Nat),
      execCmd env initState t (.Draw a b d f) tr = .error (.draw .MissingPipeline)) ∧
    (∀ (env : Env) (pid : Nat) (p : RenderPipeline),
      env.render_pipelines pid = some p →
      env.context.compatible p.pass_context = true →
      env.is_ds_read_only = false →
      p.flags.BLEND_COLOR = true →
      env.pipeline_layouts p.layout_id = some [] →
      execPass env initState [] [(.SetPipeline pid, []), (.Draw 0 0 0 0, [])] =
        .error (.draw .MissingBlendColor)) ∧
    (∀ (env : Env) (pid : Nat) (p : RenderPipeline),
      env.render_pipelines pid = some p →
      env.context.compatible p.pass_context = true →
      env.is_ds_read_only = false →
      p.flags.BLEND_COLOR = false →
      p.flags.STENCIL_REFERENCE = true →
      env.pipeline_layouts p.layout_id = some [] →
      execPass env initState [] [(.SetPipeline pid, []), (.Draw 0 0 0 0, [])] =
        .error (.draw .MissingStencilReference)) := by
  refine ⟨?_, ?_, ?_, ?_, ?_, ?_, ?_, ?_, ?_⟩
  · intro s
    rw [State.is_ready]
    constructor
    · intro h
      by_cases h1 : s.binder.mask ≠ 0
      · rw [if_pos h1] at h; cases h
      · rw [if_neg h1] at h
        by_cases h2 : s.pipeline = .Required
        · rw [if_pos h2] at h; cases h
        · rw [if_neg h2] at h
          by_cases h3 : s.blend_color = .Required
          · rw [if_pos h3] at h; cases h
          · rw [if_neg h3] at h
            by_cases h4 : s.stencil_reference = .Required
            · rw [if_pos h4] at h; cases h
            · exact ⟨by omega, h2, h3, h4⟩
    · rintro ⟨h1, h2, h3, h4⟩
      rw [if_neg (by omega), if_neg h2, if_neg h3, if_neg h4]
  · intro s h
    refine ⟨by rw [State.is_ready, if_pos h], ?_, ?_⟩
    · rw [← invalidMask_testBit s.binder.expected s.binder.provided s.binder.pipeline_layout_id]
      exact (trailingZeros_spec s.binder.mask h).1
    · intro j hj
      rw [← invalidMask_testBit s.binder.expected s.binder.provided s.binder.pipeline_layout_id]
      exact (trailingZeros_spec s.binder.mask h).2 j hj
  · intro s h1 h2
    rw [State.is_ready, if_neg (by omega), if_pos h2]
  · intro s h1 h2 h3
    rw [State.is_ready, if_neg (by omega), if_neg h2, if_pos h3]
  · intro s h1 h2 h3 h4
    rw [State.is_ready, if_neg (by omega), if_neg h2, if_neg h3, if_pos h4]
  · rintro env s t e c tr (⟨a, b, d, f, rfl⟩ | ⟨a, b, d, f, g, rfl⟩ |
      ⟨a, b, rfl⟩ | ⟨a, b, rfl⟩) hr <;> simp [execCmd, hr]
  · intro env t a b d f tr
    have hr : initState.is_ready = .error .MissingPipeline := by decide
    simp [execCmd, hr]
  · intro env pid p hp hcomp hds hbc hlay
    by_cases hif : IndexFormat.Uint32 = p.index_format <;>
      simp [execPass, execCmd, hp, hcomp, hds, hbc, hlay, hif, initState, Binder.reset,
        OptionalState.require, IndexState.update_limit, VertexState.update_limits,
        State.is_ready, Binder.mask, Binder.invalidMask, limitStep]
  · intro env pid p hp hcomp hds hbc hsr hlay
    by_cases hif : IndexFormat.Uint32 = p.index_format <;>
      simp [execPass, execCmd, hp, hcomp, hds, hbc, hsr, hlay, hif, initState, Binder.reset,
        OptionalState.require, IndexState.update_limit, VertexState.update_limits,
        State.is_ready, Binder.mask, Binder.invalidMask, limitStep]



/-- Witness for C1: concrete instances of the readiness rules — the
initial state fails a Draw with MissingPipeline, a state with an invalid
slot 1 reports IncompatibleBindGroup 1, and the two concrete
blend/stencil scenarios report their errors. -/
theorem C1_draw_readiness_witness :
    execCmd env0 initState [] (.Draw 3 1 0 0) [] = .error (.draw .MissingPipeline) ∧
    st1.is_ready = .error (.IncompatibleBindGroup 1) ∧
    execPass env0 initState [] [(.SetPipeline 0, []), (.Draw 0 0 0 0, [])] =
      .error (.draw .MissingBlendColor) ∧
    execPass env0 initState [] [(.SetPipeline 1, []), (.Draw 0 0 0 0, [])] =
      .error (.draw .MissingStencilReference) :=
  ⟨C1_draw_readiness.2.2.2.2.2.2.1 env0 [] 3 1 0 0 [],
    (by
      have h := (C1_draw_readiness.2.1 st1 (by decide)).1
      have hm : st1.binder.mask = 2 := by decide
      rw [hm] at h
      have htz : trailingZeros 2 = 1 := by
        rw [trailingZeros, trailingZeros]
        norm_num
      rw [htz] at h
      exact h),
    C1_draw_readiness.2.2.2.2.2.2.2.1 env0 0 pBC (by decide) (by decide) (by decide)
      (by decide) (by decide),
    C1_draw_readiness.2.2.2.2.2.2.2.2 env0 1 pSR (by decide) (by decide) (by decide)
      (by decide) (by decide) (by decide)⟩

/-! ### C4: the derived index limit -/

/-- C4 (amended): after SetIndexBuffer binds a byte range of length L
(L = size for an explicit size, L = buffer.size − offset for a
whole-buffer request), the derived index limit is floor(L / s) truncated
to u32 (that is, modulo 2^32), where s is the element size of the format
in effect — integer division with no rounding up; with no buffer bound
the limit is 0; and SetPipeline recomputes the limit under the new
element size exactly when it changes the index format.  The concrete
instances: a 16-byte range under the 32-bit format yields 4 and a 15-byte
range yields 3. -/
theorem C4_index_limit :
    (∀ (env : Env) (s : State) (t : Trackers) (buffer_id offset size : Nat)
        (buffer : Buffer) (tr : List Nat) (s2 : State) (t2 : Trackers),
      env.buffers buffer_id = some buffer →
      execCmd env s t (.SetIndexBuffer buffer_id offset size) tr = .ok (s2, t2) →
      s2.index.format = s.index.format ∧
      s2.index.limit =
        ((if size ≠ WHOLE then size else buffer.size - offset) /
          elemSize s.index.format) % 2 ^ 32) ∧
    (∀ ist : IndexState, ist.bound_buffer_view = none → ist.update_limit.limit = 0) ∧
    initState.index.limit = 0 ∧
    (∀ (env : Env) (s : State) (t : Trackers) (pid : Nat) (p : RenderPipeline)
        (tr : List Nat) (s2 : State) (t2 : Trackers),
      env.render_pipelines pid = some p →
      execCmd env s t (.SetPipeline pid) tr = .ok (s2, t2) →
      (p.index_format ≠ s.index.format →
        s2.index = ({ s.index with format := p.index_format }).update_limit) ∧
      (p.index_format = s.index.format → s2.index = s.index)) ∧
    (IndexState.update_limit ⟨some (0, 0, 16), .Uint32, 0⟩).limit = 4 ∧
    (IndexState.update_limit ⟨some (0, 0, 15), .Uint32, 0⟩).limit = 3 := by
  refine ⟨?_, ?_, by decide, ?_, by decide, by decide⟩
  · intro env s t buffer_id offset size buffer tr s2 t2 hb hexec
    rw [execCmd] at hexec
    simp only [hb] at hexec
    by_cases hu : buffer.usage.INDEX
    · rw [if_neg (by simpa using hu)] at hexec
      cases hexec
      constructor
      · rfl
      · rw [IndexState.update_limit]
        simp only
        cases hf : s.index.format <;>
          simp [elemSize, Nat.shiftRight_eq_div_pow] <;>
          by_cases hw : size = WHOLE <;>
          simp [hw]
    · rw [if_pos (by simpa using hu)] at hexec
      cases hexec
  · intro ist h
    rw [IndexState.update_limit, h]
  · intro env s t pid p tr s2 t2 hp hexec
    rw [execCmd] at hexec
    simp only [hp] at hexec
    split at hexec
    · cases hexec
    · split at hexec
      · cases hexec
      · split at hexec
        · cases hexec
        · split at hexec
          · cases hexec
          · cases hexec
            constructor
            · intro hne
              simp [Ne.symm hne]
            · intro heq
              simp [heq]

/-! ### C5: vertex-slot auto-fill and the derived vertex/instance limits -/

/-- The paired fold of update_limits splits into the two per-step-mode
minimum folds. -/
theorem foldl_limitStep :
    ∀ (l : List VertexBufferState) (a b : Nat),
      l.foldl limitStep (a, b) =
        (((l.filter (fun v => decide (v.stride ≠ 0) && decide (v.rate = .Vertex))).map
            (fun v => (v.total_size / v.stride) % 2 ^ 32)).foldl min a,
        ((l.filter (fun v => decide (v.stride ≠ 0) && decide (v.rate = .Instance))).map
            (fun v => (v.total_size / v.stride) % 2 ^ 32)).foldl min b) := by
  intro l
  induction l with
  | nil => intro a b; simp
  | cons v rest ih =>
    intro a b
    obtain ⟨ts, st, r⟩ := v
    by_cases hst : st = 0
    · subst hst
      simp [limitStep, List.filter_cons, ih]
    · cases r <;> simp [limitStep, List.filter_cons, hst, ih]

/-- update_limits computes exactly the minimums the spec describes. -/
theorem update_limits_spec (v : VertexState) :
    v.update_limits.vertex_limit = specVertexLimit v.inputs ∧
    v.update_limits.instance_limit = specInstanceLimit v.inputs := by
  rw [VertexState.update_limits, foldl_limitStep v.inputs u32max u32max]
  exact ⟨rfl, rfl⟩

/-- C5 (amended): SetVertexBuffer at slot k first pads unbound lower
slots with zero-stride placeholders and binds slot k with byte length L
(size, or buffer.size − offset for a whole-buffer request); afterwards
(and likewise after every SetPipeline) the derived vertex limit equals
the minimum over bound non-zero-stride vertex-rate slots of
floor(total_size / stride) truncated to u32, the instance limit the
analogous instance-rate minimum; and a Draw with vertex_count = V and
first_vertex = 0 passes the range checks exactly when V is within the
vertex limit. -/
theorem C5_vertex_limits :
    (∀ (env : Env) (s : State) (t : Trackers) (slot buffer_id offset size : Nat)
        (buffer : Buffer) (tr : List Nat) (s2 : State) (t2 : Trackers),
      env.buffers buffer_id = some buffer →
      execCmd env s t (.SetVertexBuffer slot buffer_id offset size) tr = .ok (s2, t2) →
      s2.vertex.inputs.length = max s.vertex.inputs.length (slot + 1) ∧
      (∀ i, s.vertex.inputs.length ≤ i → i < slot →
        s2.vertex.inputs[i]? = some VertexBufferState.EMPTY) ∧
      (∀ i, i < s.vertex.inputs.length → i ≠ slot →
        s2.vertex.inputs[i]? = s.vertex.inputs[i]?) ∧
      (s2.vertex.inputs[slot]?.map (fun v => v.total_size)) =
        some (if size ≠ WHOLE then size else buffer.size - offset) ∧
      s2.vertex.vertex_limit = specVertexLimit s2.vertex.inputs ∧
      s2.vertex.instance_limit = specInstanceLimit s2.vertex.inputs) ∧
    (∀ (env : Env) (s : State) (t : Trackers) (pid : Nat) (p : RenderPipeline)
        (tr : List Nat) (s2 : State) (t2 : Trackers),
      env.render_pipelines pid = some p →
      execCmd env s t (.SetPipeline pid) tr = .ok (s2, t2) →
      s2.vertex.vertex_limit = specVertexLimit s2.vertex.inputs ∧
      s2.vertex.instance_limit = specInstanceLimit s2.vertex.inputs) ∧
    (∀ (env : Env) (s : State) (t : Trackers) (V : Nat) (tr : List Nat),
      s.is_ready = .ok () → V < 2 ^ 32 →
      (execCmd env s t (.Draw V 0 0 0) tr = .ok (s, t) ↔ V ≤ s.vertex.vertex_limit)) := by
  refine ⟨?_, ?_, ?_⟩
  · intro env s t slot buffer_id offset size buffer tr s2 t2 hb hexec
    rw [execCmd] at hexec
    simp only [hb] at hexec
    split at hexec
    · cases hexec
    · cases hexec
      have hlen : (s.vertex.inputs ++
          List.replicate (slot + 1 - s.vertex.inputs.length) VertexBufferState.EMPTY).length =
          max s.vertex.inputs.length (slot + 1) := by
        simp
        omega
      refine ⟨?_, ?_, ?_, ?_, ?_, ?_⟩
      · simp [VertexState.update_limits, List.length_set, hlen]
      · intro i hi1 hi2
        simp only [VertexState.update_limits]
        rw [List.getElem?_set_ne (by omega)]
        rw [List.getElem?_append_right (by omega)]
        rw [List.getElem?_replicate, if_pos (by omega)]
      · intro i hi1 hi2
        simp only [VertexState.update_limits]
        rw [List.getElem?_set_ne (by omega)]
        rw [List.getElem?_append, if_pos (by omega)]
      · simp only [VertexState.update_limits]
        rw [List.getElem?_set_self ?hslot]
        case hslot =>
          simp
          omega
        simp
      · exact (update_limits_spec _).1
      · exact (update_limits_spec _).2
  · intro env s t pid p tr s2 t2 hp hexec
    rw [execCmd] at hexec
    simp only [hp] at hexec
    split at hexec
    · cases hexec
    · split at hexec
      · cases hexec
      · split at hexec
        · cases hexec
        · split at hexec
          · cases hexec
          · cases hexec
            exact ⟨(update_limits_spec _).1, (update_limits_spec _).2⟩
  · intro env s t V tr hready hV
    rw [execCmd]
    rw [hready]
    simp only [Nat.zero_add, Nat.add_zero]
    rw [Nat.mod_eq_of_lt hV]
    by_cases hle : V ≤ s.vertex.vertex_limit
    · rw [if_neg (by simpa using hle)]
      rw [if_neg (by simp)]
      simp [hle]
    · rw [if_pos (by simpa using hle)]
      simp [hle]

/-- Witness for C5: binding a 16-byte buffer at slot 2 of the initial
state auto-fills slots 0 and 1 with placeholders and the limits match the
spec minimums; a Draw of 9 vertices on a state with vertex limit 10
passes the range check. -/
theorem C5_vertex_limits_witness :
    sW.vertex.vertex_limit = specVertexLimit sW.vertex.inputs ∧
    (∀ i, initState.vertex.inputs.length ≤ i → i < 2 →
      sW.vertex.inputs[i]? = some VertexBufferState.EMPTY) ∧
    (execCmd envV stReady [] (.Draw 9 0 0 0) [] = .ok (stReady, []) ↔
      9 ≤ stReady.vertex.vertex_limit) :=
  ⟨(C5_vertex_limits.1 envBig initState [] 2 0 0 16 bufBig [] sW []
      (by decide) (by decide)).2.2.2.2.1,
   (C5_vertex_limits.1 envBig initState [] 2 0 0 16 bufBig [] sW []
      (by decide) (by decide)).2.1,
   C5_vertex_limits.2.2 envV stReady [] 9 [] (by decide) (by decide)⟩

/-- C5 counterexample: a 2^33-byte whole-buffer binding at slot 0 under a
stride-1 vertex-rate pipeline gives the code vertex limit
(2^33 / 1) mod 2^32 = 0, while the minimum of floor(total_size / stride)
the claim states is 2^33. -/
theorem C5_counterexample :
    (execPass envV initState []
        [(.SetVertexBuffer 0 0 0 WHOLE, []), (.SetPipeline 0, [])]).toOption.map
        (fun r => (r.1.vertex.inputs, r.1.vertex.vertex_limit)) =
      some ([⟨2 ^ 33, 1, .Vertex⟩], 0) ∧
    2 ^ 33 / 1 = 2 ^ 33 ∧ (0 : Nat) ≠ 2 ^ 33 := by
  decide

/-- Witness for C4: an explicit 16-byte range bound into the initial
state (32-bit format) keeps the format and yields the truncated
length-over-element-size limit. -/
theorem C4_index_limit_witness :
    ({ initState with index := ⟨some (0, 0, 16), .Uint32, 4⟩ } : State).index.format =
        initState.index.format ∧
    ({ initState with index := ⟨some (0, 0, 16), .Uint32, 4⟩ } : State).index.limit =
      ((if 16 ≠ WHOLE then 16 else bufBig.size - 0) / elemSize initState.index.format) %
        2 ^ 32 :=
  C4_index_limit.1 envBig initState [] 0 0 16 bufBig []
    { initState with index := ⟨some (0, 0, 16), .Uint32, 4⟩ } [] (by decide) (by decide)

/-- C4 counterexample: a 2^34-byte explicit range under the 32-bit format
gives the code limit (2^34 / 4) mod 2^32 = 0, while the claim states
floor(L / s) = 2^32. -/
theorem C4_counterexample :
    initState.index.format = .Uint32 ∧
    (execCmd envBig initState [] (.SetIndexBuffer 0 0 (2 ^ 34)) []).toOption.map
        (fun r => r.1.index.limit) = some 0 ∧
    2 ^ 34 / elemSize .Uint32 = 2 ^ 32 ∧ (0 : Nat) ≠ 2 ^ 32 := by
  decide

/-! ### C6: draw range checks and indirect draws -/

/-- C6: for a ready state, Draw is fatal unless the u32 sums
first_vertex + vertex_count and first_instance + instance_count are
within the vertex and instance limits; DrawIndexed likewise against the
index limit plus the instance check; DrawIndirect and DrawIndexedIndirect
check only that the source buffer exists with the INDIRECT usage — no
vertex, index or instance count limit appears in their arms (the limits
in the state are universally quantified and unconstrained). -/
theorem C6_draw_range_checks :
    (∀ (env : Env) (s : State) (t : Trackers) (vc ic fv fi : Nat) (tr : List Nat),
      s.is_ready = .ok () →
      execCmd env s t (.Draw vc ic fv fi) tr =
        if (fv + vc) % 2 ^ 32 ≤ s.vertex.vertex_limit then
          if (fi + ic) % 2 ^ 32 ≤ s.vertex.instance_limit then .ok (s, t)
          else .error .instanceOutOfBounds
        else .error .vertexOutOfBounds) ∧
    (∀ (env : Env) (s : State) (t : Trackers) (nidx nins fidx bv fins : Nat)
        (tr : List Nat),
      s.is_ready = .ok () →
      execCmd env s t (.DrawIndexed nidx nins fidx bv fins) tr =
        if (fidx + nidx) % 2 ^ 32 ≤ s.index.limit then
          if (fins + nins) % 2 ^ 32 ≤ s.vertex.instance_limit then .ok (s, t)
          else .error .instanceOutOfBounds
        else .error .indexOutOfBounds) ∧
    (∀ (env : Env) (s : State) (t : Trackers) (bid off : Nat) (tr : List Nat)
        (buffer : Buffer),
      s.is_ready = .ok () → env.buffers bid = some buffer →
      execCmd env s t (.DrawIndirect bid off) tr =
        if buffer.usage.INDIRECT then .ok (s, t) else .error .missingBufferUsage) ∧
    (∀ (env : Env) (s : State) (t : Trackers) (bid off : Nat) (tr : List Nat)
        (buffer : Buffer),
      s.is_ready = .ok () → env.buffers bid = some buffer →
      execCmd env s t (.DrawIndexedIndirect bid off) tr =
        if buffer.usage.INDIRECT then .ok (s, t) else .error .missingBufferUsage) := by
  refine ⟨?_, ?_, ?_, ?_⟩
  · intro env s t vc ic fv fi tr hready
    rw [execCmd, hready]
    by_cases h1 : (fv + vc) % 2 ^ 32 ≤ s.vertex.vertex_limit
    · rw [if_neg (by simpa using h1), if_pos h1]
      by_cases h2 : (fi + ic) % 2 ^ 32 ≤ s.vertex.instance_limit
      · rw [if_neg (by simpa using h2), if_pos h2]
      · rw [if_pos (by simpa using h2), if_neg h2]
    · rw [if_pos (by simpa using h1), if_neg h1]
  · intro env s t nidx nins fidx bv fins tr hready
    rw [execCmd, hready]
    by_cases h1 : (fidx + nidx) % 2 ^ 32 ≤ s.index.limit
    · rw [if_neg (by simpa using h1), if_pos h1]
      by_cases h2 : (fins + nins) % 2 ^ 32 ≤ s.vertex.instance_limit
      · rw [if_neg (by simpa using h2), if_pos h2]
      · rw [if_pos (by simpa using h2), if_neg h2]
    · rw [if_pos (by simpa using h1), if_neg h1]
  · intro env s t bid off tr buffer hready hb
    rw [execCmd, hready]
    simp only [hb]
    by_cases hu : buffer.usage.INDIRECT
    · rw [if_neg (by simpa using hu), if_pos hu]
    · rw [if_pos (by simpa using hu), if_neg hu]
  · intro env s t bid off tr buffer hready hb
    rw [execCmd, hready]
    simp only [hb]
    by_cases hu : buffer.usage.INDIRECT
    · rw [if_neg (by simpa using hu), if_pos hu]
    · rw [if_pos (by simpa using hu), if_neg hu]

/-- Witness for C6: on a ready state with limits (10, 20, index 5), a
Draw of 4 vertices from vertex 3 passes, a DrawIndexed of 9 indices
exceeds the index limit, and a DrawIndirect succeeds on an INDIRECT
buffer with any limits. -/
theorem C6_draw_range_checks_witness :
    execCmd env0 stReady [] (.Draw 4 2 3 1) [] = .ok (stReady, []) ∧
    execCmd env0 stReady [] (.DrawIndexed 9 0 0 0 0) [] = .error .indexOutOfBounds ∧
    execCmd envBig stReady [] (.DrawIndirect 0 0) [] = .ok (stReady, []) := by
  refine ⟨?_, ?_, ?_⟩
  · rw [C6_draw_range_checks.1 env0 stReady [] 4 2 3 1 [] (by decide)]
    decide
  · rw [C6_draw_range_checks.2.1 env0 stReady [] 9 0 0 0 0 [] (by decide)]
    decide
  · rw [C6_draw_range_checks.2.2.1 envBig stReady [] 0 0 [] bufBig (by decide) (by decide)]
    decide

/-! ### C8: executing a render bundle -/

/-- C8: ExecuteBundle is fatal unless the recorded pass-context of the
bundle equals the active one (compatible is context equality); when
compatible, the recorded usages of the bundle are appended to the pass
trackers and the bundle-scoped state — pipeline, bind groups, index and
vertex bindings and their limits — is reset to unbound, so that a
following Draw without a fresh SetPipeline fails with MissingPipeline. -/
theorem C8_execute_bundle :
    (∀ (env : Env) (s : State) (t : Trackers) (bid : Nat) (tr : List Nat)
        (bundle : RenderBundle),
      env.bundles bid = some bundle →
      (env.context.compatible bundle.context = false →
        execCmd env s t (.ExecuteBundle bid) tr = .error .incompatibleBundleContext) ∧
      (env.context.compatible bundle.context = true →
        execCmd env s t (.ExecuteBundle bid) tr = .ok (s.reset_bundle, t ++ bundle.used))) ∧
    (∀ a b : RenderPassContext, a.compatible b = true ↔ a = b) ∧
    (∀ s : State,
      s.reset_bundle.pipeline = .Required ∧
      s.reset_bundle.binder = Binder.reset ∧
      s.reset_bundle.index.bound_buffer_view = none ∧
      s.reset_bundle.index.limit = 0 ∧
      s.reset_bundle.vertex.inputs = [] ∧
      s.reset_bundle.vertex.vertex_limit = 0 ∧
      s.reset_bundle.vertex.instance_limit = 0) ∧
    (∀ (env : Env) (s : State) (t : Trackers) (a b c d : Nat) (tr : List Nat),
      execCmd env s.reset_bundle t (.Draw a b c d) tr = .error (.draw .MissingPipeline)) := by
  refine ⟨?_, ?_, ?_, ?_⟩
  · intro env s t bid tr bundle hb
    constructor
    · intro hc
      rw [execCmd]
      simp [hb, hc]
    · intro hc
      rw [execCmd]
      simp [hb, hc]
  · intro a b
    simp [RenderPassContext.compatible]
  · intro s
    simp [State.reset_bundle, Binder.reset, IndexState.reset, VertexState.reset]
  · intro env s t a b c d tr
    have hready : s.reset_bundle.is_ready = .error .MissingPipeline := by
      rw [State.is_ready]
      simp [State.reset_bundle, Binder.reset, Binder.mask, Binder.invalidMask]
    rw [execCmd, hready]

/-- Witness for C8: an incompatible bundle is fatal, the compatible
bundle 0 resets the ready state and merges its usage token 42, and a Draw
right after fails with MissingPipeline. -/
theorem C8_execute_bundle_witness :
    execCmd envBn stReady [] (.ExecuteBundle 1) [] = .error .incompatibleBundleContext ∧
    execCmd envBn stReady [] (.ExecuteBundle 0) [] = .ok (stReady.reset_bundle, [42]) ∧
    execCmd envBn stReady.reset_bundle [42] (.Draw 1 0 0 0) [] =
      .error (.draw .MissingPipeline) :=
  ⟨(C8_execute_bundle.1 envBn stReady [] 1 [] bundleBad (by decide)).1 (by decide),
    (C8_execute_bundle.1 envBn stReady [] 0 [] bundle0 (by decide)).2 (by decide),
    C8_execute_bundle.2.2.2 envBn stReady [42] 1 0 0 0 []⟩

/-! ### C10: bundle execution preserves blend color and stencil
reference -/

/-- C10: reset_bundle leaves blend color, stencil reference and the
debug-scope depth untouched; consequently a pass that set a blend color
before a compatible bundle can re-bind a blend-color-requiring pipeline
after it and draw without re-issuing SetBlendColor. -/
theorem C10_bundle_preserves_blend :
    (∀ s : State,
      s.reset_bundle.blend_color = s.blend_color ∧
      s.reset_bundle.stencil_reference = s.stencil_reference ∧
      s.reset_bundle.debug_scope_depth = s.debug_scope_depth) ∧
    (∀ (env : Env) (s : State) (t : Trackers) (bid pid : Nat)
        (bundle : RenderBundle) (p : RenderPipeline),
      env.bundles bid = some bundle →
      env.context.compatible bundle.context = true →
      env.render_pipelines pid = some p →
      env.context.compatible p.pass_context = true →
      env.is_ds_read_only = false →
      p.flags.BLEND_COLOR = true →
      p.flags.STENCIL_REFERENCE = false →
      env.pipeline_layouts p.layout_id = some [] →
      s.blend_color = .Set →
      s.stencil_reference ≠ .Required →
      (execPass env s t
          [(.ExecuteBundle bid, []), (.SetPipeline pid, []),
            (.Draw 0 0 0 0, [])]).isOk = true) := by
  constructor
  · intro s
    simp [State.reset_bundle]
  · intro env s t bid pid bundle p hb hcomp hp hcomp2 hds hbc hsrf hlay hblend hsr
    by_cases hif : s.index.format = p.index_format <;>
      simp [execPass, execCmd, hb, hcomp, hp, hcomp2, hds, hbc, hsrf, hlay, hblend, hsr,
        hif, State.reset_bundle, Binder.reset, OptionalState.require, State.is_ready,
        Binder.mask, Binder.invalidMask, IndexState.update_limit, IndexState.reset,
        VertexState.update_limits, VertexState.reset, limitStep, u32max, Except.isOk, Except.toBool]

/-- Witness for C10: with a blend color set before the compatible bundle
0, re-binding the blend-requiring pipeline 0 and drawing succeeds without
re-issuing SetBlendColor. -/
theorem C10_bundle_preserves_blend_witness :
    (execPass envBn stBlend []
        [(.ExecuteBundle 0, []), (.SetPipeline 0, []), (.Draw 0 0 0 0, [])]).isOk = true :=
  C10_bundle_preserves_blend.2 envBn stBlend [] 0 0 bundle0 pBC (by decide) (by decide)
    (by decide) (by decide) (by decide) (by decide) (by decide) (by decide) (by decide)
    (by decide)

/-! ### C7: depth-stencil read-only legality -/

/-- C7 (amended): the aspects are checked depth first with an early exit,
not independently.  The attachment is read-only (ATTACHMENT_READ) exactly
when every present aspect is requested read-only AND all four
depth/stencil ops are Load/Store (including ops of an absent aspect); it
is writable (ATTACHMENT_WRITE, no error) when the depth aspect is present
and not requested read-only — in which case no op constraint at all is
enforced, not even on a read-only stencil — or when depth falls through
with Load/Store ops and the stencil aspect is present and not read-only;
it is fatal when the first aspect that falls through to its op check has
ops other than Load/Store.  In particular depth present, requested
read-only, with a Clear depth load op is fatal, and a present writable
depth aspect may use any ops without error. -/
theorem C7_ds_read_only (d : RenderPassDepthStencilAttachmentDescriptor) (a : Aspects) :
    (is_depth_stencil_read_only d a = .ok true ↔
      ((a.DEPTH = true → d.depth_read_only = true) ∧
        d.depth_load_op = .Load ∧ d.depth_store_op = .Store ∧
        (a.STENCIL = true → d.stencil_read_only = true) ∧
        d.stencil_load_op = .Load ∧ d.stencil_store_op = .Store)) ∧
    (is_depth_stencil_read_only d a = .ok false ↔
      ((a.DEPTH = true ∧ d.depth_read_only = false) ∨
        (d.depth_load_op = .Load ∧ d.depth_store_op = .Store ∧
          ¬(a.DEPTH = true ∧ d.depth_read_only = false) ∧
          a.STENCIL = true ∧ d.stencil_read_only = false))) ∧
    (a.DEPTH = true → d.depth_read_only = true → d.depth_load_op = .Clear →
      is_depth_stencil_read_only d a = .error .clearNonReadOnlyDepth) ∧
    (a.DEPTH = true → d.depth_read_only = false →
      is_depth_stencil_read_only d a = .ok false) ∧
    (depthStencilUse d a = .ok (true, .ATTACHMENT_READ) ↔
      is_depth_stencil_read_only d a = .ok true) ∧
    (depthStencilUse d a = .ok (false, .ATTACHMENT_WRITE) ↔
      is_depth_stencil_read_only d a = .ok false) := by
  obtain ⟨att, dlo, dso, cd, dro, slo, sso, cst, sro⟩ := d
  obtain ⟨ad, asp⟩ := a
  cases dlo <;> cases dso <;> cases slo <;> cases sso <;> cases dro <;> cases sro <;>
    cases ad <;> cases asp <;>
    simp [is_depth_stencil_read_only, depthStencilUse]

/-- Witness for C7: a fully read-only Load/Store descriptor is read-only,
the writable-depth descriptor dsCex is writable, and a read-only depth
with a Clear load op is fatal. -/
theorem C7_ds_read_only_witness :
    is_depth_stencil_read_only dsRO ⟨true, true⟩ = .ok true ∧
    is_depth_stencil_read_only dsCex ⟨true, true⟩ = .ok false ∧
    is_depth_stencil_read_only ⟨0, .Clear, .Store, 0, true, .Load, .Store, 0, true⟩
        ⟨true, true⟩ = .error .clearNonReadOnlyDepth :=
  ⟨(C7_ds_read_only dsRO ⟨true, true⟩).1.mpr (by decide),
    (C7_ds_read_only dsCex ⟨true, true⟩).2.2.2.1 rfl rfl,
    (C7_ds_read_only ⟨0, .Clear, .Store, 0, true, .Load, .Store, 0, true⟩
        ⟨true, true⟩).2.2.1 rfl rfl rfl⟩

/-- C7 counterexample: dsCex requests the stencil aspect read-only with a
Clear stencil load op, yet because its depth aspect is present and
writable the function returns ok false — no error is raised, against the
claim that requesting an aspect read-only while its load op clears is
fatal for each aspect independently. -/
theorem C7_counterexample :
    dsCex.stencil_read_only = true ∧
    dsCex.stencil_load_op = .Clear ∧
    dsCex.depth_read_only = false ∧
    is_depth_stencil_read_only dsCex ⟨true, true⟩ = .ok false ∧
    depthStencilUse dsCex ⟨true, true⟩ = .ok (false, .ATTACHMENT_WRITE) := by
  decide

/-! ### C9: at most one swap-chain image per pass -/

/-- An already-claimed swap-chain slot survives swapTrack unchanged. -/
theorem swapTrack_mono (cmb : Option Nat) (u src : Nat) (u2 : Option Nat)
    (h : swapTrack cmb (some u) src = .ok u2) : u2 = some u := by
  cases cmb with
  | some sc =>
    simp only [swapTrack] at h
    split at h
    · cases h
    · cases h; rfl
  | none => simp [swapTrack] at h

/-- With no command-buffer swap chain, a successful swapTrack claims the
slot for this source and can only have started from an empty slot. -/
theorem swapTrack_none (usc : Option Nat) (src : Nat) (u2 : Option Nat)
    (h : swapTrack none usc src = .ok u2) : u2 = some src ∧ usc = none := by
  cases usc with
  | none =>
    simp only [swapTrack, Option.isSome_none, Bool.false_eq_true, if_false] at h
    cases h
    exact ⟨rfl, rfl⟩
  | some x => simp [swapTrack] at h

/-- The color loop never changes an already-claimed swap-chain slot. -/
theorem processColors_mono :
    ∀ (ats : List RenderPassColorAttachmentDescriptor) (ae : AttachEnv)
      (cmb : Option Nat) (sc u : Nat) (ext u2 ext2 : Option Nat)
      (ls : List (Layout × Layout)),
      processColors ae cmb sc ats (some u) ext = .ok (u2, ext2, ls) → u2 = some u := by
  intro ats
  induction ats with
  | nil =>
    intro ae cmb sc u ext u2 ext2 ls h
    rw [processColors] at h
    cases h
    rfl
  | cons a rest ih =>
    intro ae cmb sc u ext u2 ext2 ls h
    rw [processColors] at h
    split at h
    · cases h
    · rename_i view hv
      split at h
      · cases h
      · rename_i extent2 hext
        split at h
        · cases h
        · split at h
          · cases h
          · rename_i u' lay hinner
            split at h
            · cases h
            · rename_i u3 e3 ls3 hrec
              have hu' : u' = some u := by
                cases hin : view.inner with
                | Native src =>
                  rw [hin] at hinner
                  simp at hinner
                  exact hinner.1.symm
                | SwapChain src =>
                  rw [hin] at hinner
                  simp only [map_texture_state_color] at hinner
                  split at hinner
                  · cases hinner
                  · rename_i u'' hst
                    simp at hinner
                    rw [← hinner.1]
                    exact swapTrack_mono cmb u src u'' hst
              rw [hu'] at hrec
              have hr := ih ae cmb sc u extent2 u3 e3 ls3 hrec
              simp only [Except.ok.injEq, Prod.mk.injEq] at h
              rw [← h.1]
              exact hr

/-- The resolve loop never changes an already-claimed swap-chain slot. -/
theorem processResolves_mono :
    ∀ (rids : List Nat) (ae : AttachEnv) (cmb : Option Nat) (u : Nat)
      (ext u2 : Option Nat) (ls : List (Layout × Layout)),
      processResolves ae cmb rids (some u) ext = .ok (u2, ls) → u2 = some u := by
  intro rids
  induction rids with
  | nil =>
    intro ae cmb u ext u2 ls h
    rw [processResolves] at h
    cases h
    rfl
  | cons rid rest ih =>
    intro ae cmb u ext u2 ls h
    rw [processResolves] at h
    split at h
    · cases h
    · rename_i view hv
      split at h
      · cases h
      · split at h
        · cases h
        · split at h
          · cases h
          · rename_i u' lay hinner
            split at h
            · cases h
            · rename_i u3 ls3 hrec
              have hu' : u' = some u := by
                cases hin : view.inner with
                | Native src =>
                  rw [hin] at hinner
                  simp at hinner
                  exact hinner.1.symm
                | SwapChain src =>
                  rw [hin] at hinner
                  simp only [map_texture_state_color] at hinner
                  split at hinner
                  · cases hinner
                  · rename_i u'' hst
                    simp at hinner
                    rw [← hinner.1]
                    exact swapTrack_mono cmb u src u'' hst
              rw [hu'] at hrec
              have hr := ih ae cmb u ext u3 ls3 hrec
              simp only [Except.ok.injEq, Prod.mk.injEq] at h
              rw [← h.1]
              exact hr

/-- With no command-buffer swap chain, success of the color loop forces
every swap-chain source it saw to be the finally claimed one. -/
theorem processColors_swap_all :
    ∀ (ats : List RenderPassColorAttachmentDescriptor) (ae : AttachEnv) (sc : Nat)
      (usc ext u2 ext2 : Option Nat) (ls : List (Layout × Layout)),
      processColors ae none sc ats usc ext = .ok (u2, ext2, ls) →
      ∀ src ∈ ats.filterMap (fun x => swapSourceOf ae x.attachment), u2 = some src := by
  intro ats
  induction ats with
  | nil =>
    intro ae sc usc ext u2 ext2 ls h src hmem
    simp at hmem
  | cons a rest ih =>
    intro ae sc usc ext u2 ext2 ls h src hmem
    rw [processColors] at h
    split at h
    · cases h
    · rename_i view hv
      split at h
      · cases h
      · rename_i extent2 hext
        split at h
        · cases h
        · split at h
          · cases h
          · rename_i u' lay hinner
            split at h
            · cases h
            · rename_i u3 e3 ls3 hrec
              simp only [Except.ok.injEq, Prod.mk.injEq] at h
              rw [← h.1]
              cases hin : view.inner with
              | Native nsrc =>
                have hskip : swapSourceOf ae a.attachment = none := by
                  simp [swapSourceOf, hv, hin]
                rw [List.filterMap_cons, hskip] at hmem
                exact ih ae sc u' extent2 u3 e3 ls3 hrec src hmem
              | SwapChain ssrc =>
                have hkeep : swapSourceOf ae a.attachment = some ssrc := by
                  simp [swapSourceOf, hv, hin]
                rw [List.filterMap_cons, hkeep] at hmem
                rw [hin] at hinner
                simp only [map_texture_state_color] at hinner
                split at hinner
                · cases hinner
                · rename_i u'' hst
                  simp at hinner
                  obtain ⟨hu1, hu2⟩ := swapTrack_none usc ssrc u'' hst
                  cases hmem with
                  | head =>
                    rw [← hinner.1, hu1] at hrec
                    exact processColors_mono rest ae none sc src extent2 u3 e3 ls3 hrec
                  | tail _ hmem2 =>
                    exact ih ae sc u' extent2 u3 e3 ls3 hrec src hmem2

/-- With no command-buffer swap chain, success of the resolve loop forces
every swap-chain source it saw to be the finally claimed one. -/
theorem processResolves_swap_all :
    ∀ (rids : List Nat) (ae : AttachEnv) (usc ext u2 : Option Nat)
      (ls : List (Layout × Layout)),
      processResolves ae none rids usc ext = .ok (u2, ls) →
      ∀ src ∈ rids.filterMap (swapSourceOf ae), u2 = some src := by
  intro rids
  induction rids with
  | nil =>
    intro ae usc ext u2 ls h src hmem
    simp at hmem
  | cons rid rest ih =>
    intro ae usc ext u2 ls h src hmem
    rw [processResolves] at h
    split at h
    · cases h
    · rename_i view hv
      split at h
      · cases h
      · split at h
        · cases h
        · split at h
          · cases h
          · rename_i u' lay hinner
            split at h
            · cases h
            · rename_i u3 ls3 hrec
              simp only [Except.ok.injEq, Prod.mk.injEq] at h
              rw [← h.1]
              cases hin : view.inner with
              | Native nsrc =>
                have hskip : swapSourceOf ae rid = none := by
                  simp [swapSourceOf, hv, hin]
                rw [List.filterMap_cons, hskip] at hmem
                exact ih ae u' ext u3 ls3 hrec src hmem
              | SwapChain ssrc =>
                have hkeep : swapSourceOf ae rid = some ssrc := by
                  simp [swapSourceOf, hv, hin]
                rw [List.filterMap_cons, hkeep] at hmem
                rw [hin] at hinner
                simp only [map_texture_state_color] at hinner
                split at hinner
                · cases hinner
                · rename_i u'' hst
                  simp at hinner
                  obtain ⟨hu1, hu2⟩ := swapTrack_none usc ssrc u'' hst
                  cases hmem with
                  | head =>
                    rw [← hinner.1, hu1] at hrec
                    exact processResolves_mono rest ae none src ext u3 ls3 hrec
                  | tail _ hmem2 =>
                    exact ih ae u' ext u3 ls3 hrec src hmem2

/-- The layout pair the color loop computes for a swap-chain attachment
is derived from its load op. -/
theorem processColors_swap_layout :
    ∀ (ats : List RenderPassColorAttachmentDescriptor) (ae : AttachEnv)
      (cmb : Option Nat) (sc : Nat) (usc ext u2 ext2 : Option Nat)
      (ls : List (Layout × Layout)),
      processColors ae cmb sc ats usc ext = .ok (u2, ext2, ls) →
      ∀ (i : Nat) (a : RenderPassColorAttachmentDescriptor) (view : TextureView)
        (src : Nat),
        ats[i]? = some a → ae.views a.attachment = some view →
        view.inner = .SwapChain src →
        ls[i]? = some (colorSwapStart a.load_op, Layout.Present) := by
  intro ats
  induction ats with
  | nil =>
    intro ae cmb sc usc ext u2 ext2 ls h i a view src hi
    simp at hi
  | cons a0 rest ih =>
    intro ae cmb sc usc ext u2 ext2 ls h i a view src hi hva hin
    rw [processColors] at h
    split at h
    · cases h
    · rename_i view0 hv
      split at h
      · cases h
      · rename_i extent2 hext
        split at h
        · cases h
        · split at h
          · cases h
          · rename_i u' lay hinner
            split at h
            · cases h
            · rename_i u3 e3 ls3 hrec
              simp only [Except.ok.injEq, Prod.mk.injEq] at h
              obtain ⟨h1, h2, h3⟩ := h
              subst h3
              cases i with
              | zero =>
                simp only [List.getElem?_cons_zero, Option.some.injEq] at hi
                subst hi
                rw [hva] at hv
                cases hv
                rw [hin] at hinner
                simp only [map_texture_state_color] at hinner
                split at hinner
                · cases hinner
                · rename_i u'' hst
                  simp at hinner
                  simp [← hinner.2]
              | succ j =>
                simp only [List.getElem?_cons_succ] at hi
                simp only [List.getElem?_cons_succ]
                exact ih ae cmb sc u' extent2 u3 e3 ls3 hrec j a view src hi hva hin

/-- The layout pair the resolve loop computes for a swap-chain resolve
target is always Undefined to Present, independent of any load op. -/
theorem processResolves_swap_layout :
    ∀ (rids : List Nat) (ae : AttachEnv) (cmb : Option Nat)
      (usc ext u2 : Option Nat) (ls : List (Layout × Layout)),
      processResolves ae cmb rids usc ext = .ok (u2, ls) →
      ∀ (i rid : Nat) (view : TextureView) (src : Nat),
        rids[i]? = some rid → ae.views rid = some view →
        view.inner = .SwapChain src →
        ls[i]? = some (Layout.Undefined, Layout.Present) := by
  intro rids
  induction rids with
  | nil =>
    intro ae cmb usc ext u2 ls h i rid view src hi
    simp at hi
  | cons rid0 rest ih =>
    intro ae cmb usc ext u2 ls h i rid view src hi hva hin
    rw [processResolves] at h
    split at h
    · cases h
    · rename_i view0 hv
      split at h
      · cases h
      · split at h
        · cases h
        · split at h
          · cases h
          · rename_i u' lay hinner
            split at h
            · cases h
            · rename_i u3 ls3 hrec
              simp only [Except.ok.injEq, Prod.mk.injEq] at h
              obtain ⟨h1, h3⟩ := h
              subst h3
              cases i with
              | zero =>
                simp only [List.getElem?_cons_zero, Option.some.injEq] at hi
                subst hi
                rw [hva] at hv
                cases hv
                rw [hin] at hinner
                simp only [map_texture_state_color] at hinner
                split at hinner
                · cases hinner
                · rename_i u'' hst
                  simp at hinner
                  simp [← hinner.2]
              | succ j =>
                simp only [List.getElem?_cons_succ] at hi
                simp only [List.getElem?_cons_succ]
                exact ih ae cmb u' ext u3 ls3 hrec j rid view src hi hva hin

/-- C9: at most one presentable-surface image per pass, and the
swap-chain layout transitions.  When the command buffer uses no swap
chain yet, a successful attachment phase forces all swap-chain sources —
across color attachments and resolve targets — to coincide; two different
surface images make the phase fail; a swap-chain color attachment gets
the transition Clear implies Undefined-to-Present and Load implies
Present-to-Present; a swap-chain resolve target always gets
Undefined-to-Present. -/
theorem C9_swap_chain :
    (∀ (ae : AttachEnv) (sc : Nat) (colors : List RenderPassColorAttachmentDescriptor)
        (r : Option Nat × List (Layout × Layout) × List (Layout × Layout)),
      processAttachments ae none sc colors = .ok r →
      ∀ s1 ∈ swapSources ae colors, ∀ s2 ∈ swapSources ae colors, s1 = s2) ∧
    (∀ (ae : AttachEnv) (sc : Nat) (colors : List RenderPassColorAttachmentDescriptor)
        (s1 s2 : Nat),
      s1 ∈ swapSources ae colors → s2 ∈ swapSources ae colors → s1 ≠ s2 →
      ∃ e, processAttachments ae none sc colors = .error e) ∧
    (∀ (ae : AttachEnv) (cmb : Option Nat) (sc : Nat) (usc ext u2 ext2 : Option Nat)
        (colors : List RenderPassColorAttachmentDescriptor)
        (ls : List (Layout × Layout)),
      processColors ae cmb sc colors usc ext = .ok (u2, ext2, ls) →
      ∀ (i : Nat) (a : RenderPassColorAttachmentDescriptor) (view : TextureView)
        (src : Nat),
        colors[i]? = some a → ae.views a.attachment = some view →
        view.inner = .SwapChain src →
        ls[i]? = some (colorSwapStart a.load_op, Layout.Present)) ∧
    (∀ (ae : AttachEnv) (cmb : Option Nat) (usc ext u2 : Option Nat)
        (rids : List Nat) (ls : List (Layout × Layout)),
      processResolves ae cmb rids usc ext = .ok (u2, ls) →
      ∀ (i rid : Nat) (view : TextureView) (src : Nat),
        rids[i]? = some rid → ae.views rid = some view →
        view.inner = .SwapChain src →
        ls[i]? = some (Layout.Undefined, Layout.Present)) ∧
    colorSwapStart .Clear = .Undefined ∧ colorSwapStart .Load = .Present := by
  have key : ∀ (ae : AttachEnv) (sc : Nat)
      (colors : List RenderPassColorAttachmentDescriptor)
      (r : Option Nat × List (Layout × Layout) × List (Layout × Layout)),
      processAttachments ae none sc colors = .ok r →
      ∀ s ∈ swapSources ae colors, r.1 = some s := by
    intro ae sc colors r h s hs
    rw [processAttachments] at h
    split at h
    · cases h
    · rename_i u_mid ext cls heqc
      split at h
      · cases h
      · rename_i u2 rls heqr
        cases h
        rw [swapSources, List.mem_append] at hs
        cases hs with
        | inl hsc =>
          have h1 := processColors_swap_all colors ae sc none none u_mid ext cls heqc s hsc
          rw [h1] at heqr
          exact processResolves_mono _ ae none s ext u2 rls heqr
        | inr hsr =>
          exact processResolves_swap_all _ ae u_mid ext u2 rls heqr s hsr
  refine ⟨?_, ?_, ?_, ?_, rfl, rfl⟩
  · intro ae sc colors r h s1 h1 s2 h2
    have k1 := key ae sc colors r h s1 h1
    have k2 := key ae sc colors r h s2 h2
    rw [k1] at k2
    cases k2
    rfl
  · intro ae sc colors s1 s2 h1 h2 hne
    cases hres : processAttachments ae none sc colors with
    | error e => exact ⟨e, rfl⟩
    | ok r =>
      have k1 := key ae sc colors r hres s1 h1
      have k2 := key ae sc colors r hres s2 h2
      rw [k1] at k2
      cases k2
      exact absurd rfl hne
  · intro ae cmb sc usc ext u2 ext2 colors ls h
    exact processColors_swap_layout colors ae cmb sc usc ext u2 ext2 ls h
  · intro ae cmb usc ext u2 rids ls h
    exact processResolves_swap_layout rids ae cmb usc ext u2 ls h

/-- Witness for C9: a pass with one native and one swap-chain attachment
succeeds and all its swap sources agree; adding an attachment on a second
surface image makes the phase fail; the swap-chain color layouts follow
the load op. -/
theorem C9_swap_chain_witness :
    (∀ s1 ∈ swapSources aeW [colorAtt 0 none .Clear, colorAtt 1 none .Load],
      ∀ s2 ∈ swapSources aeW [colorAtt 0 none .Clear, colorAtt 1 none .Load], s1 = s2) ∧
    (∃ e, processAttachments aeW none 1
        [colorAtt 1 none .Load, colorAtt 2 none .Load] = .error e) := by
  constructor
  · refine C9_swap_chain.1 aeW 1 [colorAtt 0 none .Clear, colorAtt 1 none .Load]
      (some 100,
        [(Layout.ColorAttachmentOptimal, Layout.ColorAttachmentOptimal),
          (Layout.Present, Layout.Present)], []) ?_
    decide
  · exact C9_swap_chain.2.1 aeW 1 [colorAtt 1 none .Load, colorAtt 2 none .Load]
      100 200 (by decide) (by decide) (by decide)

end WgpuRender
